import Mathlib

/-!
Verification of the Eclipse Combat Simulator core against its design
specification.

The Python sources (`part.py`, `hull.py`, `ship.py`, `player.py`, `ecs.py`,
`scoreboard.py`) are embedded shallowly:

* `Part` and `Hull` are records of the static template attributes.
* `Ship` is a record of the Python object's fields; the `owner` reference is
  flattened to the two fields the combat engine reads (`owner_id` and
  `owner_is_defending`).
* Python floats (`initiative`, `kill_priority`) are modelled as `Rat`; every
  value the program produces for them is a small dyadic rational, so `Rat`
  arithmetic coincides with IEEE float arithmetic on all reachable values.
* The mutable state threaded by the engine (both fleets, the per-round firing
  sequence, the die-roll source) is passed and returned explicitly.
* `random.randint(1, 6)` is the sole source of nondeterminism; it is modelled
  by an explicit script of die outcomes consumed in call order (defaulting to
  1 when the script is exhausted, which no theorem depends on).
* Object mutation via aliases is modelled by id-directed write-backs: the one
  place Python mutates a ship reached through the firing sequence
  (`roll_missile_attacks`) is mirrored by replacing the ship with the same
  `id` in its owner's fleet.

In addition the engine is instrumented with an `Event` trace recording, in
order, every attack tuple resolved, every damage application and every ship
destruction; the trace is output-only and never read back by the engine.
-/

namespace ECSim

/-- Static part template (`part.py`, class `Part`). Fields irrelevant to
combat (`is_ancient`, `is_available`) are omitted; combat never reads them. -/
structure Part where
  name : String
  damage : Int
  nshots : Nat
  power : Int
  armor : Int
  shield : Int
  hit_bonus : Int
  initiative : Int
  is_weapon : Bool
  is_missile : Bool
  is_drive : Bool
deriving Repr, DecidableEq

/-- Static hull template (`hull.py`, class `Hull`). Assembly-only fields
(`nmax`, `nslots`, `needs_drive`, `is_mobile`, `default_parts`) are omitted;
combat reads only the name and the two bonuses. -/
structure Hull where
  name : String
  bonus_power : Int
  bonus_initiative : Rat
deriving Repr, DecidableEq

/-- A combat ship (`ship.py`, class `Ship`): the identity, template references
and the derived fields written by `Ship.integrate`. -/
structure Ship where
  id : Nat
  hull : Hull
  parts : List Part
  owner_id : Nat
  owner_is_defending : Bool
  missiles_fired : Bool
  net_damage : Int
  net_power : Int
  armor : Int
  shield : Int
  hit_bonus : Int
  initiative : Rat
  has_drive : Bool
  has_weapon : Bool
  kill_priority : Rat
deriving Repr, DecidableEq

/-- `Ship.calc_kill_priority`: expected damage per round
(`net_damage * (1 + hit_bonus) / 6.0`) divided by `armor`. -/
def Ship.calc_kill_priority (s : Ship) : Ship :=
  let kp := (s.net_damage : Rat) * (1 + (s.hit_bonus : Rat)) / 6
  { s with kill_priority := kp / (s.armor : Rat) }

/-- Body of the part-integration loop in `Ship.integrate`. -/
def Ship.integrate_part (s : Ship) (p : Part) : Ship :=
  let s := { s with
    net_power := s.net_power + p.power,
    armor := s.armor + p.armor,
    shield := s.shield + p.shield,
    hit_bonus := s.hit_bonus + p.hit_bonus,
    initiative := s.initiative + (p.initiative : Rat) }
  let s := if p.is_drive then { s with has_drive := true } else s
  if p.is_weapon then
    if !p.is_missile then
      { s with has_weapon := true,
               net_damage := s.net_damage + p.damage * (p.nshots : Int) }
    else if s.missiles_fired then s
    else
      { s with has_weapon := true,
               net_damage := s.net_damage + p.damage * (p.nshots : Int) }
  else s

/-- `Ship.integrate`: reset the derived stats, fold in every equipped part,
then recompute `kill_priority`. -/
def Ship.integrate (s : Ship) : Ship :=
  let s0 : Ship := { s with
    net_damage := 0,
    net_power := s.hull.bonus_power,
    armor := 1,
    shield := 0,
    hit_bonus := 0,
    initiative := s.hull.bonus_initiative +
      (if s.owner_is_defending then (1 : Rat) / 2 else 0),
    has_drive := false,
    has_weapon := false }
  (s.parts.foldl Ship.integrate_part s0).calc_kill_priority

/-- An attack tuple `(to-hit roll (1d6), to-hit bonus, damage)`. -/
structure Attack where
  roll : Nat
  bonus : Int
  damage : Int
deriving Repr, DecidableEq

/-- One call of the die primitive `random.randint(1, 6)`, reading the next
scripted outcome. -/
def next_roll (script : List Nat) : Nat × List Nat :=
  (script.headD 1, script.tail)

/-- The inner shot loop shared by both rolling methods: one attack tuple per
shot of one weapon part. -/
def roll_shots (bonus damage : Int) : Nat → List Nat → List Attack × List Nat
  | 0, script => ([], script)
  | n + 1, script =>
    let r := next_roll script
    let rest := roll_shots bonus damage n r.2
    (⟨r.1, bonus, damage⟩ :: rest.1, rest.2)

/-- The part loop shared by both rolling methods: attack tuples for every
equipped part selected by `sel`, in part order. -/
def roll_parts (sel : Part → Bool) (bonus : Int) :
    List Part → List Nat → List Attack × List Nat
  | [], script => ([], script)
  | p :: ps, script =>
    if sel p then
      let r1 := roll_shots bonus p.damage p.nshots script
      let r2 := roll_parts sel bonus ps r1.2
      (r1.1 ++ r2.1, r2.2)
    else roll_parts sel bonus ps script

/-- `Ship.roll_conventional_attacks`: `None` for a weaponless ship, otherwise
one tuple per shot of every non-missile weapon part. -/
def Ship.roll_conventional_attacks (s : Ship) (script : List Nat) :
    Option (List Attack) × List Nat :=
  if s.has_weapon then
    let r := roll_parts (fun p => p.is_weapon && !p.is_missile)
      s.hit_bonus s.parts script
    (some r.1, r.2)
  else (none, script)

/-- `Ship.roll_missile_attacks`: `None` for a weaponless ship, otherwise one
tuple per shot of every missile part; the ship then has `missiles_fired` set
and is reintegrated.  The updated ship is returned alongside the attacks. -/
def Ship.roll_missile_attacks (s : Ship) (script : List Nat) :
    (Option (List Attack) × Ship) × List Nat :=
  if s.has_weapon then
    let r := roll_parts (fun p => p.is_weapon && p.is_missile)
      s.hit_bonus s.parts script
    ((some r.1, Ship.integrate { s with missiles_fired := true }), r.2)
  else ((none, s), script)

/-- A player (`player.py`, class `Player`) with their fleet. -/
structure Player where
  id : Nat
  is_defending : Bool
  fleet : List Ship
deriving Repr, DecidableEq

/-- `Player.sort_fleet`: stable sort of the fleet by descending
`kill_priority` (Python's `sorted` with key `-kill_priority`). -/
def Player.sort_fleet (p : Player) : Player :=
  { p with fleet :=
      (p.fleet.insertionSort
        (fun a b => -a.kill_priority ≤ -b.kill_priority)) }

/-- Observable combat events, recorded in resolution order. -/
inductive Event where
  | attack (roll : Nat) (bonus damage : Int)
  | hit (roll : Nat) (bonus damage : Int) (target : Nat)
  | destroyed (sid : Nat)
deriving Repr, DecidableEq

/-- Terminal classification of one combat. -/
inductive Outcome where
  | defender_wins
  | attacker_wins
  | stalemate
deriving Repr, DecidableEq

/-- Replace the first ship carrying the given id (Python mutates the unique
object with that id in place). -/
def updateFirst (tid : Nat) (f : Ship → Ship) : List Ship → List Ship
  | [] => []
  | s :: rest =>
    if s.id = tid then f s :: rest else s :: updateFirst tid f rest

/-- Delete the first ship carrying the given id (Python's `del` inside an
id-search loop). -/
def eraseFirstId (tid : Nat) : List Ship → List Ship
  | [] => []
  | s :: rest => if s.id = tid then rest else s :: eraseFirstId tid rest

/-- `ECS.destroy_ship`: remove the destroyed ship from its owner's fleet and
from the current round's firing sequence. -/
def ECS.destroy_ship (tid : Nat) (firing_seq fleet : List Ship) :
    List Ship × List Ship :=
  (eraseFirstId tid firing_seq, eraseFirstId tid fleet)

/-- Result of resolving attacks: the surviving firing sequence, the surviving
opposing fleet, and the recorded events. -/
structure HitResult where
  firing_seq : List Ship
  fleet : List Ship
  trace : List Event
deriving Repr, DecidableEq

/-- `ECS.apply_damage`: subtract the attack's damage from the armor of the
fleet ship with the target id; destroy it when its armor drops below 1. -/
def ECS.apply_damage (atk : Attack) (tid : Nat) (firing_seq fleet : List Ship) :
    HitResult :=
  match fleet.find? (fun s => s.id == tid) with
  | none => ⟨firing_seq, fleet, []⟩
  | some s =>
    let fleet1 :=
      updateFirst tid (fun t => { t with armor := t.armor - atk.damage }) fleet
    if s.armor - atk.damage < 1 then
      let d := ECS.destroy_ship tid firing_seq fleet1
      ⟨d.1, d.2,
        [Event.hit atk.roll atk.bonus atk.damage tid, Event.destroyed tid]⟩
    else ⟨firing_seq, fleet1, [Event.hit atk.roll atk.bonus atk.damage tid]⟩

/-- `ECS.apply_attacks`: resolve a batch of attack tuples in order against an
opposing fleet.  A roll of 1 always misses; a roll of 6 always hits the
current index-0 ship; otherwise the first ship with
`roll + bonus - shield > 5` is struck; resolution stops early if the fleet
empties. -/
def ECS.apply_attacks : List Attack → List Ship → List Ship → HitResult
  | [], fs, fleet => ⟨fs, fleet, []⟩
  | _ :: _, fs, [] => ⟨fs, [], []⟩
  | atk :: rest, fs, t :: ts =>
    if atk.roll = 1 then
      let r := ECS.apply_attacks rest fs (t :: ts)
      ⟨r.firing_seq, r.fleet,
        Event.attack atk.roll atk.bonus atk.damage :: r.trace⟩
    else if atk.roll = 6 then
      let h := ECS.apply_damage atk t.id fs (t :: ts)
      let r := ECS.apply_attacks rest h.firing_seq h.fleet
      ⟨r.firing_seq, r.fleet,
        Event.attack atk.roll atk.bonus atk.damage :: (h.trace ++ r.trace)⟩
    else
      match (t :: ts).find?
          (fun s => decide (5 < (atk.roll : Int) + atk.bonus - s.shield)) with
      | some s =>
        let h := ECS.apply_damage atk s.id fs (t :: ts)
        let r := ECS.apply_attacks rest h.firing_seq h.fleet
        ⟨r.firing_seq, r.fleet,
          Event.attack atk.roll atk.bonus atk.damage :: (h.trace ++ r.trace)⟩
      | none =>
        let r := ECS.apply_attacks rest fs (t :: ts)
        ⟨r.firing_seq, r.fleet,
          Event.attack atk.roll atk.bonus atk.damage :: r.trace⟩

/-- Pop the group of ships that share the current maximum initiative from the
end of the ascending-initiative firing sequence (`ECS.roll_attacks`, the two
inner `pop` loops).  Returns the group leader (first popped), the rest of the
group in pop order, and the remaining sequence; `none` when the sequence is
exhausted. -/
def pop_group (seq : List Ship) : Option (Ship × List Ship × List Ship) :=
  match seq.reverse with
  | [] => none
  | s :: rest =>
    some (s, rest.takeWhile (fun t => t.initiative == s.initiative),
      (rest.dropWhile (fun t => t.initiative == s.initiative)).reverse)

theorem eraseFirstId_length_le (tid : Nat) (l : List Ship) :
    (eraseFirstId tid l).length ≤ l.length := by
  induction l with
  | nil => simp [eraseFirstId]
  | cons s rest ih =>
    simp only [eraseFirstId]
    split
    · simp
    · simpa using Nat.succ_le_succ ih

theorem apply_damage_firing_seq_length_le (atk : Attack) (tid : Nat)
    (fs fleet : List Ship) :
    (ECS.apply_damage atk tid fs fleet).firing_seq.length ≤ fs.length := by
  unfold ECS.apply_damage
  split
  · simp
  · split
    · simpa [ECS.destroy_ship] using eraseFirstId_length_le tid fs
    · simp

theorem apply_attacks_firing_seq_length_le (atks : List Attack) :
    ∀ fs fleet : List Ship,
      (ECS.apply_attacks atks fs fleet).firing_seq.length ≤ fs.length := by
  induction atks with
  | nil => intro fs fleet; simp [ECS.apply_attacks]
  | cons atk rest ih =>
    intro fs fleet
    match fleet with
    | [] => simp [ECS.apply_attacks]
    | t :: ts =>
      simp only [ECS.apply_attacks]
      split
      · exact ih fs (t :: ts)
      · split
        · exact le_trans
            (ih _ _) (apply_damage_firing_seq_length_le atk t.id fs (t :: ts))
        · split
          · exact le_trans (ih _ _)
              (apply_damage_firing_seq_length_le atk _ fs (t :: ts))
          · exact ih fs (t :: ts)

theorem pop_group_length {seq : List Ship} {lead : Ship}
    {grp seq1 : List Ship} (h : pop_group seq = some (lead, grp, seq1)) :
    seq1.length < seq.length := by
  unfold pop_group at h
  rcases hrev : seq.reverse with _ | ⟨s, rest⟩
  · rw [hrev] at h; simp at h
  · rw [hrev] at h
    simp only [Option.some.injEq, Prod.mk.injEq] at h
    obtain ⟨-, -, h3⟩ := h
    have hlen : seq.length = rest.length + 1 := by
      have := congrArg List.length hrev
      simpa using this
    calc seq1.length
        = (rest.dropWhile (fun t => t.initiative == s.initiative)).length := by
          rw [← h3]; simp
      _ ≤ rest.length := (List.dropWhile_sublist _).length_le
      _ < seq.length := by omega

/-- State threaded through one call of `ECS.roll_attacks`: both players, the
remaining die script, and the events recorded so far. -/
structure RoundState where
  defender : Player
  attacker : Player
  script : List Nat
  trace : List Event
deriving Repr, DecidableEq

/-- Conventional volley of one initiative group: the list comprehension over
`firing_now` followed by the `None` filter and the flattening. -/
def fire_conventional : List Ship → List Nat → List Attack × List Nat
  | [], script => ([], script)
  | s :: rest, script =>
    let r := s.roll_conventional_attacks script
    let rr := fire_conventional rest r.2
    (match r.1 with
     | none => rr.1
     | some atts => atts ++ rr.1, rr.2)

/-- Missile volley of one initiative group.  Besides the flattened attacks it
returns the group's ships after `roll_missile_attacks` (Python mutates those
ship objects in place, which the caller mirrors with a fleet write-back). -/
def fire_missiles : List Ship → List Nat → (List Attack × List Ship) × List Nat
  | [], script => (([], []), script)
  | s :: rest, script =>
    let r := s.roll_missile_attacks script
    let rr := fire_missiles rest r.2
    ((match r.1.1 with
      | none => rr.1.1
      | some atts => atts ++ rr.1.1, r.1.2 :: rr.1.2), rr.2)

/-- Propagate in-place mutation of fired ships back into a fleet: each ship of
`updated` replaces the fleet ship carrying the same id. -/
def write_back (updated fleet : List Ship) : List Ship :=
  updated.foldl
    (fun fl u => fl.map (fun t => if t.id = u.id then u else t)) fleet

/-- The `while` loop of `ECS.roll_attacks`: pop the highest-initiative group,
roll its attacks (missile or conventional by the phase flag), and resolve them
against the fleet opposing the group leader's owner; stop when the firing
sequence is exhausted or either fleet is empty. -/
def roll_attacks_loop (firing_missiles : Bool) (st : RoundState)
    (seq : List Ship) : RoundState :=
  if st.defender.fleet = [] ∨ st.attacker.fleet = [] then st
  else
    match hpg : pop_group seq with
    | none => st
    | some (lead, grp, seq1) =>
      if firing_missiles then
        let fr := fire_missiles (lead :: grp) st.script
        let d1 : Player :=
          { st.defender with fleet := write_back fr.1.2 st.defender.fleet }
        let a1 : Player :=
          { st.attacker with fleet := write_back fr.1.2 st.attacker.fleet }
        if fr.1.1 = [] then
          roll_attacks_loop firing_missiles
            ⟨d1, a1, fr.2, st.trace⟩ seq1
        else if lead.owner_id = st.defender.id then
          let r := ECS.apply_attacks fr.1.1 seq1 a1.fleet
          roll_attacks_loop firing_missiles
            ⟨d1, { a1 with fleet := r.fleet }, fr.2, st.trace ++ r.trace⟩
            r.firing_seq
        else
          let r := ECS.apply_attacks fr.1.1 seq1 d1.fleet
          roll_attacks_loop firing_missiles
            ⟨{ d1 with fleet := r.fleet }, a1, fr.2, st.trace ++ r.trace⟩
            r.firing_seq
      else
        let fr := fire_conventional (lead :: grp) st.script
        if fr.1 = [] then
          roll_attacks_loop firing_missiles
            ⟨st.defender, st.attacker, fr.2, st.trace⟩ seq1
        else if lead.owner_id = st.defender.id then
          let r := ECS.apply_attacks fr.1 seq1 st.attacker.fleet
          roll_attacks_loop firing_missiles
            ⟨st.defender, { st.attacker with fleet := r.fleet }, fr.2,
              st.trace ++ r.trace⟩ r.firing_seq
        else
          let r := ECS.apply_attacks fr.1 seq1 st.defender.fleet
          roll_attacks_loop firing_missiles
            ⟨{ st.defender with fleet := r.fleet }, st.attacker, fr.2,
              st.trace ++ r.trace⟩ r.firing_seq
termination_by seq.length
decreasing_by
  all_goals
    first
    | exact pop_group_length hpg
    | exact lt_of_le_of_lt (apply_attacks_firing_seq_length_le _ _ _)
        (pop_group_length hpg)

/-- The merged firing sequence: both fleets together, stably sorted by
ascending initiative (groups are then popped from the end). -/
def merged_firing_seq (defender attacker : Player) : List Ship :=
  (defender.fleet ++ attacker.fleet).insertionSort
    (fun a b => a.initiative ≤ b.initiative)

/-- `ECS.roll_attacks`: make attacks for all ships in combat, in one phase
(missile phase when the flag is set, otherwise one conventional round). -/
def ECS.roll_attacks (firing_missiles : Bool) (defender attacker : Player)
    (script : List Nat) : RoundState :=
  roll_attacks_loop firing_missiles ⟨defender, attacker, script, []⟩
    (merged_firing_seq defender attacker)

/-- State after running the round loop: both players, the remaining script,
and the event trace of each executed round, in order. -/
structure RoundsState where
  defender : Player
  attacker : Player
  script : List Nat
  rounds : List (List Event)
deriving Repr, DecidableEq

/-- The round loop of `ECS.simulate_combat`.  The argument counts the rounds
the cap still allows (`1000 - combat_round`); each iteration runs one
conventional phase, so the loop stops exactly when a fleet is empty or the
counter reaches the cap. -/
def ECS.run_rounds : Nat → Player → Player → List Nat → RoundsState
  | 0, d, a, s => ⟨d, a, s, []⟩
  | n + 1, d, a, s =>
    if d.fleet = [] ∨ a.fleet = [] then ⟨d, a, s, []⟩
    else
      let r := ECS.roll_attacks false d a s
      let rest := ECS.run_rounds n r.defender r.attacker r.script
      ⟨rest.defender, rest.attacker, rest.script, r.trace :: rest.rounds⟩

/-- Terminal result of one combat. -/
structure CombatResult where
  outcome : Outcome
  defender : Player
  attacker : Player
  script : List Nat
  missile_trace : List Event
  round_traces : List (List Event)
deriving Repr, DecidableEq

/-- `ECS.simulate_combat`: missile phase, fleet re-sort, round loop with the
1000-round cap (`combat_round` starts at 1, so at most 999 conventional
rounds run), then terminal classification. -/
def ECS.simulate_combat (defender attacker : Player) (script : List Nat) :
    CombatResult :=
  let m := ECS.roll_attacks true defender attacker script
  let d1 := m.defender.sort_fleet
  let a1 := m.attacker.sort_fleet
  let r := ECS.run_rounds 999 d1 a1 m.script
  let oc :=
    if r.defender.fleet.length < 1 then Outcome.attacker_wins
    else if r.attacker.fleet.length < 1 then Outcome.defender_wins
    else Outcome.stalemate
  ⟨oc, r.defender, r.attacker, r.script, m.trace, r.rounds⟩

/-- Deep copy of a player (`copy.deepcopy` in `ECS.run_simulations`): in
Python it produces an independent object graph observationally equal to the
original; on pure values this is the identity. -/
def deepcopy (p : Player) : Player := p

/-- Update of `self.sim_results` in `ECS.simulate_combat`: one counter per
player (defender wins, attacker wins) plus a final stalemate counter. -/
def record_sim_result (results : Nat × Nat × Nat) (oc : Outcome) :
    Nat × Nat × Nat :=
  match oc with
  | Outcome.defender_wins => (results.1 + 1, results.2.1, results.2.2)
  | Outcome.attacker_wins => (results.1, results.2.1 + 1, results.2.2)
  | Outcome.stalemate => (results.1, results.2.1, results.2.2 + 1)

/-- `ECS.run_simulations`: run the requested number of trials, deep-copying
both template players before each trial; the die script is shared across
trials (Python's single global random stream). -/
def ECS.run_simulations (defender attacker : Player) :
    Nat → List Nat → Nat × Nat × Nat →
      (Nat × Nat × Nat) × Player × Player × List Nat
  | 0, script, results => (results, defender, attacker, script)
  | n + 1, script, results =>
    let d := deepcopy defender
    let a := deepcopy attacker
    let r := ECS.simulate_combat d a script
    ECS.run_simulations defender attacker n r.script
      (record_sim_result results r.outcome)

/-- Number of ships of the given hull type in a fleet
(`sum(1 for a_ship in winner.fleet if a_ship.hull.name == key)`). -/
def count_hull (fleet : List Ship) (key : String) : Nat :=
  (fleet.filter (fun s => s.hull.name == key)).length

/-- The hull-type keys collected from a fleet in first-occurrence order
(the insertion-ordered dict keys built in `Scoreboard.__init__`). -/
def hull_keys (fleet : List Ship) : List String :=
  fleet.foldl
    (fun acc s => if s.hull.name ∈ acc then acc else acc ++ [s.hull.name]) []

/-- The scoreboard (`scoreboard.py`, class `Scoreboard`).  The stored player
references are flattened to the two ids `record_victory` compares against;
each survivor dictionary is an insertion-ordered association list. -/
structure Scoreboard where
  defender_id : Nat
  def_wins : Nat
  def_ships_remaining : List (String × List Nat)
  attacker_id : Nat
  atk_wins : Nat
  atk_ships_remaining : List (String × List Nat)
  stalemates : Nat
deriving Repr, DecidableEq

/-- `Scoreboard.__init__`: zero counters, and one empty survivor list per
hull type present in each template fleet. -/
def Scoreboard.init (defender attacker : Player) : Scoreboard :=
  ⟨defender.id, 0, (hull_keys defender.fleet).map (fun k => (k, [])),
    attacker.id, 0, (hull_keys attacker.fleet).map (fun k => (k, [])), 0⟩

/-- `Scoreboard.record_victory`: bump the winner's counter and append, for
each recorded hull type on the winner's side, the surviving count of that
type in the winning fleet. -/
def Scoreboard.record_victory (sb : Scoreboard) (winner : Player) :
    Scoreboard :=
  if winner.id = sb.defender_id then
    { sb with
      def_wins := sb.def_wins + 1,
      def_ships_remaining := sb.def_ships_remaining.map
        (fun kv => (kv.1, kv.2 ++ [count_hull winner.fleet kv.1])) }
  else
    { sb with
      atk_wins := sb.atk_wins + 1,
      atk_ships_remaining := sb.atk_ships_remaining.map
        (fun kv => (kv.1, kv.2 ++ [count_hull winner.fleet kv.1])) }

/-- `Scoreboard.record_stalemate`: bump the stalemate counter. -/
def Scoreboard.record_stalemate (sb : Scoreboard) : Scoreboard :=
  { sb with stalemates := sb.stalemates + 1 }

/-- A sample hull for concrete instantiations. -/
def wHull : Hull := ⟨"Interceptor", 0, 2⟩

/-- A sample ship (armor 3, shield 0) for concrete instantiations. -/
def wShip : Ship :=
  ⟨0, wHull, [], 1, false, false, 0, 0, 3, 0, 0, 2, false, false, 0⟩

/-- Resolving `apply_damage` against the fleet's position-0 ship: armor drops
by the attack's damage; the ship is destroyed exactly when the result is
below 1. -/
theorem apply_damage_head (atk : Attack) (t : Ship) (ts fs : List Ship) :
    ECS.apply_damage atk t.id fs (t :: ts) =
      if t.armor - atk.damage < 1 then
        ⟨eraseFirstId t.id fs, ts,
          [Event.hit atk.roll atk.bonus atk.damage t.id,
            Event.destroyed t.id]⟩
      else
        ⟨fs, { t with armor := t.armor - atk.damage } :: ts,
          [Event.hit atk.roll atk.bonus atk.damage t.id]⟩ := by
  unfold ECS.apply_damage
  have hfind : (t :: ts).find? (fun s => s.id == t.id) = some t := by
    simp
  rw [hfind]
  simp only [updateFirst, ECS.destroy_ship, eraseFirstId, if_pos rfl]
  split
  · simp [eraseFirstId]
  · simp

/-- `find?` returns the element at the first index satisfying the
predicate. -/
theorem find?_first_index {α : Type} (p : α → Bool) (l : List α) :
    ∀ (i : Nat) (hi : i < l.length),
      p (l.get ⟨i, hi⟩) = true →
      (∀ j (hj : j < l.length), j < i → p (l.get ⟨j, hj⟩) = false) →
      l.find? p = some (l.get ⟨i, hi⟩) := by
  induction l with
  | nil => intro i hi; simp at hi
  | cons x xs ih =>
    intro i hi hp hmin
    cases i with
    | zero =>
      simp only [List.get] at hp
      simp [List.find?_cons_of_pos _ hp]
    | succ k =>
      have hx : p x = false := by
        have := hmin 0 (by simp) (Nat.succ_pos k)
        simpa [List.get] using this
      have hrec : xs.find? p = some (xs.get ⟨k, by simpa using hi⟩) := by
        refine ih k (by simpa using hi) (by simpa [List.get] using hp) ?_
        intro j hj hjk
        have := hmin (j + 1) (by simpa using Nat.succ_lt_succ hj)
          (Nat.succ_lt_succ hjk)
        simpa [List.get] using this
      rw [List.find?_cons_of_neg _ (by simp [hx]), hrec]
      simp [List.get]

/-- C1: in `ECS.apply_attacks`, an attack tuple with to-hit roll 1 passes the
state through unchanged (no ship's armor changes and no ship is destroyed),
while a tuple with roll 6 applies its damage to the ship at position 0 of the
opposing fleet regardless of that ship's shield value: that ship's armor
drops by the attack's damage and it is destroyed (removed from the fleet and
the firing queue) exactly when the result is below 1. -/
theorem roll_boundary_rules (atk : Attack) (rest : List Attack)
    (fs : List Ship) (t : Ship) (ts : List Ship) :
    (atk.roll = 1 →
      ECS.apply_attacks (atk :: rest) fs (t :: ts) =
        ⟨(ECS.apply_attacks rest fs (t :: ts)).firing_seq,
          (ECS.apply_attacks rest fs (t :: ts)).fleet,
          Event.attack atk.roll atk.bonus atk.damage ::
            (ECS.apply_attacks rest fs (t :: ts)).trace⟩) ∧
    (atk.roll = 6 →
      (t.armor - atk.damage < 1 →
        (ECS.apply_attacks (atk :: rest) fs (t :: ts)).firing_seq =
            (ECS.apply_attacks rest (eraseFirstId t.id fs) ts).firing_seq ∧
        (ECS.apply_attacks (atk :: rest) fs (t :: ts)).fleet =
            (ECS.apply_attacks rest (eraseFirstId t.id fs) ts).fleet) ∧
      (1 ≤ t.armor - atk.damage →
        (ECS.apply_attacks (atk :: rest) fs (t :: ts)).firing_seq =
            (ECS.apply_attacks rest fs
              ({ t with armor := t.armor - atk.damage } :: ts)).firing_seq ∧
        (ECS.apply_attacks (atk :: rest) fs (t :: ts)).fleet =
            (ECS.apply_attacks rest fs
              ({ t with armor := t.armor - atk.damage } :: ts)).fleet)) := by
  constructor
  · intro h
    simp [ECS.apply_attacks, h]
  · intro h
    have h1 : ¬ atk.roll = 1 := by omega
    constructor
    · intro hdes
      simp only [ECS.apply_attacks, if_neg h1, if_pos h,
        apply_damage_head, if_pos hdes]
      constructor <;> trivial
    · intro hsur
      have : ¬ t.armor - atk.damage < 1 := by omega
      simp only [ECS.apply_attacks, if_neg h1, if_pos h,
        apply_damage_head, if_neg this]
      constructor <;> trivial

/-- Witness for `roll_boundary_rules` at concrete inputs: a roll-1 tuple
against a one-ship fleet, and a roll-6 tuple that leaves the target at
armor 1. -/
theorem roll_boundary_rules_witness :
    (ECS.apply_attacks [⟨1, 0, 2⟩] [] [wShip] =
      ⟨(ECS.apply_attacks [] [] [wShip]).firing_seq,
        (ECS.apply_attacks [] [] [wShip]).fleet,
        Event.attack 1 0 2 :: (ECS.apply_attacks [] [] [wShip]).trace⟩) ∧
    ((ECS.apply_attacks [⟨6, 0, 2⟩] [] [wShip]).firing_seq =
        (ECS.apply_attacks [] []
          ({ wShip with armor := wShip.armor - 2 } :: [])).firing_seq ∧
      (ECS.apply_attacks [⟨6, 0, 2⟩] [] [wShip]).fleet =
        (ECS.apply_attacks [] []
          ({ wShip with armor := wShip.armor - 2 } :: [])).fleet) :=
  ⟨(roll_boundary_rules ⟨1, 0, 2⟩ [] [] wShip []).1 rfl,
    (((roll_boundary_rules ⟨6, 0, 2⟩ [] [] wShip []).2 rfl).2 (by decide))⟩

/-- C2: in `ECS.apply_attacks`, an attack tuple whose roll is neither 1 nor 6
computes the effective roll `roll + hit_bonus`, scans the opposing fleet from
index 0 in order, and applies its damage to the first ship whose shield
satisfies `effective - shield > 5`; when no ship in the fleet satisfies this,
the attack changes nothing. -/
theorem normal_roll_targeting (atk : Attack) (rest : List Attack)
    (fs : List Ship) (t : Ship) (ts : List Ship)
    (h1 : atk.roll ≠ 1) (h6 : atk.roll ≠ 6) :
    ((∀ s ∈ t :: ts, ¬ 5 < (atk.roll : Int) + atk.bonus - s.shield) →
      ECS.apply_attacks (atk :: rest) fs (t :: ts) =
        ⟨(ECS.apply_attacks rest fs (t :: ts)).firing_seq,
          (ECS.apply_attacks rest fs (t :: ts)).fleet,
          Event.attack atk.roll atk.bonus atk.damage ::
            (ECS.apply_attacks rest fs (t :: ts)).trace⟩) ∧
    (∀ (i : Nat) (hi : i < (t :: ts).length),
      5 < (atk.roll : Int) + atk.bonus - ((t :: ts).get ⟨i, hi⟩).shield →
      (∀ j (hj : j < (t :: ts).length), j < i →
        ¬ 5 < (atk.roll : Int) + atk.bonus - ((t :: ts).get ⟨j, hj⟩).shield) →
      (ECS.apply_attacks (atk :: rest) fs (t :: ts)).firing_seq =
          (ECS.apply_attacks rest
            (ECS.apply_damage atk ((t :: ts).get ⟨i, hi⟩).id fs
              (t :: ts)).firing_seq
            (ECS.apply_damage atk ((t :: ts).get ⟨i, hi⟩).id fs
              (t :: ts)).fleet).firing_seq ∧
      (ECS.apply_attacks (atk :: rest) fs (t :: ts)).fleet =
          (ECS.apply_attacks rest
            (ECS.apply_damage atk ((t :: ts).get ⟨i, hi⟩).id fs
              (t :: ts)).firing_seq
            (ECS.apply_damage atk ((t :: ts).get ⟨i, hi⟩).id fs
              (t :: ts)).fleet).fleet) := by
  constructor
  · intro hmiss
    have hfind : (t :: ts).find?
        (fun s => decide (5 < (atk.roll : Int) + atk.bonus - s.shield)) =
          none := by
      rw [List.find?_eq_none]
      intro s hs
      simpa using hmiss s hs
    simp only [ECS.apply_attacks, if_neg h1, if_neg h6, hfind]
  · intro i hi hp hmin
    have hfind : (t :: ts).find?
        (fun s => decide (5 < (atk.roll : Int) + atk.bonus - s.shield)) =
          some ((t :: ts).get ⟨i, hi⟩) := by
      refine find?_first_index _ (t :: ts) i hi (by simpa using hp) ?_
      intro j hj hjk
      simpa using hmin j hj hjk
    simp only [ECS.apply_attacks, if_neg h1, if_neg h6, hfind]
    constructor <;> trivial

/-- Witness for `normal_roll_targeting`: a roll of 4 with bonus 2 skips a
shield-2 ship at position 0 and strikes the shield-0 ship at position 1; the
same tuple wastes its shot against two shield-2 ships. -/
theorem normal_roll_targeting_witness :
    (ECS.apply_attacks [⟨4, 2, 1⟩] []
        [{ wShip with shield := 2 }, { wShip with id := 7, shield := 2 }] =
      ⟨(ECS.apply_attacks [] []
          [{ wShip with shield := 2 },
            { wShip with id := 7, shield := 2 }]).firing_seq,
        (ECS.apply_attacks [] []
          [{ wShip with shield := 2 },
            { wShip with id := 7, shield := 2 }]).fleet,
        Event.attack 4 2 1 ::
          (ECS.apply_attacks [] []
            [{ wShip with shield := 2 },
              { wShip with id := 7, shield := 2 }]).trace⟩) ∧
    ((ECS.apply_attacks [⟨4, 2, 1⟩] []
        [{ wShip with shield := 2 }, { wShip with id := 7 }]).firing_seq =
      (ECS.apply_attacks []
        (ECS.apply_damage ⟨4, 2, 1⟩
          (([{ wShip with shield := 2 }, { wShip with id := 7 }] :
            List Ship).get ⟨1, by decide⟩).id []
          [{ wShip with shield := 2 }, { wShip with id := 7 }]).firing_seq
        (ECS.apply_damage ⟨4, 2, 1⟩
          (([{ wShip with shield := 2 }, { wShip with id := 7 }] :
            List Ship).get ⟨1, by decide⟩).id []
          [{ wShip with shield := 2 }, { wShip with id := 7 }]).fleet).firing_seq ∧
    (ECS.apply_attacks [⟨4, 2, 1⟩] []
        [{ wShip with shield := 2 }, { wShip with id := 7 }]).fleet =
      (ECS.apply_attacks []
        (ECS.apply_damage ⟨4, 2, 1⟩
          (([{ wShip with shield := 2 }, { wShip with id := 7 }] :
            List Ship).get ⟨1, by decide⟩).id []
          [{ wShip with shield := 2 }, { wShip with id := 7 }]).firing_seq
        (ECS.apply_damage ⟨4, 2, 1⟩
          (([{ wShip with shield := 2 }, { wShip with id := 7 }] :
            List Ship).get ⟨1, by decide⟩).id []
          [{ wShip with shield := 2 }, { wShip with id := 7 }]).fleet).fleet) :=
  ⟨(normal_roll_targeting ⟨4, 2, 1⟩ [] [] { wShip with shield := 2 }
      [{ wShip with id := 7, shield := 2 }] (by decide) (by decide)).1
      (by decide),
    (normal_roll_targeting ⟨4, 2, 1⟩ [] [] { wShip with shield := 2 }
      [{ wShip with id := 7 }] (by decide) (by decide)).2 1 (by decide)
      (by decide) (by decide)⟩

/-- Ids of the ships in a list, in order. -/
def ship_ids (l : List Ship) : List Nat := l.map (fun s => s.id)

@[simp]
theorem ship_ids_nil : ship_ids [] = [] := rfl

@[simp]
theorem ship_ids_cons (s : Ship) (l : List Ship) :
    ship_ids (s :: l) = s.id :: ship_ids l := rfl

theorem eraseFirstId_sublist (tid : Nat) (l : List Ship) :
    List.Sublist (eraseFirstId tid l) l := by
  induction l with
  | nil => simp [eraseFirstId]
  | cons s rest ih =>
    simp only [eraseFirstId]
    split
    · exact List.sublist_cons_self s rest
    · exact ih.cons₂ s

theorem ship_ids_eraseFirstId_sublist (tid : Nat) (l : List Ship) :
    List.Sublist (ship_ids (eraseFirstId tid l)) (ship_ids l) :=
  (eraseFirstId_sublist tid l).map _

theorem not_mem_ids_erase_self (tid : Nat) (l : List Ship)
    (hnd : (ship_ids l).Nodup) : tid ∉ ship_ids (eraseFirstId tid l) := by
  induction l with
  | nil => simp [eraseFirstId]
  | cons s rest ih =>
    simp only [eraseFirstId]
    rcases List.nodup_cons.mp (by simpa using hnd) with ⟨hs, hrest⟩
    split
    · rename_i hid
      rw [← hid]
      exact hs
    · rename_i hid
      simp only [ship_ids_cons, List.mem_cons]
      push_neg
      exact ⟨fun h => hid h.symm, ih hrest⟩

theorem mem_ids_erase_of_ne {tid t0 : Nat} (h : tid ≠ t0) (l : List Ship)
    (hm : tid ∈ ship_ids l) : tid ∈ ship_ids (eraseFirstId t0 l) := by
  induction l with
  | nil => simpa using hm
  | cons s rest ih =>
    simp only [eraseFirstId]
    split
    · rename_i hid
      rcases List.mem_cons.mp (by simpa using hm) with heq | hmem
      · exact absurd (heq.trans hid) h
      · exact hmem
    · rcases List.mem_cons.mp (by simpa using hm) with heq | hmem
      · simp [heq]
      · simp only [ship_ids_cons, List.mem_cons]
        exact Or.inr (ih hmem)

theorem ship_ids_updateFirst_armor (tid : Nat) (d : Int) (l : List Ship) :
    ship_ids
        (updateFirst tid (fun u => { u with armor := u.armor - d }) l) =
      ship_ids l := by
  induction l with
  | nil => rfl
  | cons s rest ih =>
    simp only [updateFirst]
    split
    · simp
    · simp only [ship_ids_cons, ih]

/-- Case analysis of `ECS.apply_damage`: either the target id is absent and
nothing happens, or the first ship with that id loses `damage` armor and is
additionally erased from fleet and firing sequence when the result is below
1. -/
theorem apply_damage_cases (atk : Attack) (tid : Nat) (fs fleet : List Ship) :
    (fleet.find? (fun s => s.id == tid) = none ∧
      ECS.apply_damage atk tid fs fleet = ⟨fs, fleet, []⟩) ∨
    ∃ s0, fleet.find? (fun s => s.id == tid) = some s0 ∧
      ((s0.armor - atk.damage < 1 ∧
        ECS.apply_damage atk tid fs fleet =
          ⟨eraseFirstId tid fs,
            eraseFirstId tid
              (updateFirst tid
                (fun u => { u with armor := u.armor - atk.damage }) fleet),
            [Event.hit atk.roll atk.bonus atk.damage tid,
              Event.destroyed tid]⟩) ∨
      (1 ≤ s0.armor - atk.damage ∧
        ECS.apply_damage atk tid fs fleet =
          ⟨fs,
            updateFirst tid
              (fun u => { u with armor := u.armor - atk.damage }) fleet,
            [Event.hit atk.roll atk.bonus atk.damage tid]⟩)) := by
  rcases hfind : fleet.find? (fun s => s.id == tid) with _ | s0
  · refine Or.inl ⟨hfind, ?_⟩
    simp only [ECS.apply_damage, hfind]
  · refine Or.inr ⟨s0, hfind, ?_⟩
    by_cases hd : s0.armor - atk.damage < 1
    · refine Or.inl ⟨hd, ?_⟩
      simp only [ECS.apply_damage, hfind, if_pos hd, ECS.destroy_ship]
    · refine Or.inr ⟨by omega, ?_⟩
      simp only [ECS.apply_damage, hfind, if_neg hd]

theorem mem_updateFirst_armor (tid : Nat) (d : Int) (l : List Ship) :
    ∀ x ∈ updateFirst tid (fun u => { u with armor := u.armor - d }) l,
      x ∈ l ∨
        ∃ t, l.find? (fun s => s.id == tid) = some t ∧
          x = { t with armor := t.armor - d } := by
  induction l with
  | nil => simp [updateFirst]
  | cons s rest ih =>
    simp only [updateFirst]
    split
    · rename_i hid
      intro x hx
      rcases List.mem_cons.mp hx with heq | hmem
      · exact Or.inr ⟨s, by simp [List.find?_cons_of_pos, hid], heq⟩
      · exact Or.inl (List.mem_cons_of_mem s hmem)
    · rename_i hid
      intro x hx
      rcases List.mem_cons.mp hx with heq | hmem
      · exact Or.inl (heq ▸ List.mem_cons_self s rest)
      · rcases ih x hmem with h | ⟨t, hfind, hxt⟩
        · exact Or.inl (List.mem_cons_of_mem s h)
        · refine Or.inr ⟨t, ?_, hxt⟩
          rw [List.find?_cons_of_neg _ (by simpa using fun h => hid h)]
          exact hfind

theorem mem_eraseFirstId (tid : Nat) (l : List Ship) :
    ∀ x ∈ eraseFirstId tid l, x ∈ l :=
  fun x hx => (eraseFirstId_sublist tid l).subset hx

/-- Erasing the (id-preserving) updated target undoes the update: deleting
the first ship with the target id from the updated fleet deletes exactly the
updated ship. -/
theorem erase_updateFirst_armor (tid : Nat) (d : Int) (l : List Ship) :
    eraseFirstId tid
        (updateFirst tid (fun u => { u with armor := u.armor - d }) l) =
      eraseFirstId tid l := by
  induction l with
  | nil => rfl
  | cons s rest ih =>
    simp only [updateFirst, eraseFirstId]
    split
    · rename_i hid
      simp [eraseFirstId, hid]
    · rename_i hid
      simp only [eraseFirstId, if_neg hid, ih]

/-- Armor floor through one `apply_damage`: if every fleet ship has armor at
least 1 beforehand, every surviving fleet ship does afterwards. -/
theorem apply_damage_armor_floor (atk : Attack) (tid : Nat)
    (fs fleet : List Ship) (hinv : ∀ s ∈ fleet, 1 ≤ s.armor) :
    ∀ x ∈ (ECS.apply_damage atk tid fs fleet).fleet, 1 ≤ x.armor := by
  rcases apply_damage_cases atk tid fs fleet with ⟨-, heq⟩ |
    ⟨s0, hfind, ⟨-, heq⟩ | ⟨hsur, heq⟩⟩
  · rw [heq]; exact hinv
  · rw [heq]
    intro x hx
    simp only [erase_updateFirst_armor] at hx
    exact hinv x (mem_eraseFirstId tid fleet x hx)
  · rw [heq]
    intro x hx
    rcases mem_updateFirst_armor tid atk.damage fleet x hx with
      hmem | ⟨t, hfind', hxt⟩
    · exact hinv x hmem
    · rw [hfind'] at hfind
      cases hfind
      subst hxt
      simpa using hsur

theorem apply_damage_fleet_ids_sublist (atk : Attack) (tid : Nat)
    (fs fleet : List Ship) :
    List.Sublist (ship_ids ((ECS.apply_damage atk tid fs fleet).fleet))
      (ship_ids fleet) := by
  rcases apply_damage_cases atk tid fs fleet with ⟨-, heq⟩ |
    ⟨s0, -, ⟨-, heq⟩ | ⟨-, heq⟩⟩
  · simp only [heq]
    exact List.Sublist.refl _
  · simp only [heq, erase_updateFirst_armor]
    exact ship_ids_eraseFirstId_sublist tid fleet
  · simp only [heq, ship_ids_updateFirst_armor]
    exact List.Sublist.refl _

theorem apply_damage_fs_ids_sublist (atk : Attack) (tid : Nat)
    (fs fleet : List Ship) :
    List.Sublist (ship_ids ((ECS.apply_damage atk tid fs fleet).firing_seq))
      (ship_ids fs) := by
  rcases apply_damage_cases atk tid fs fleet with ⟨-, heq⟩ |
    ⟨s0, -, ⟨-, heq⟩ | ⟨-, heq⟩⟩
  · simp only [heq]
    exact List.Sublist.refl _
  · simp only [heq]
    exact ship_ids_eraseFirstId_sublist tid fs
  · simp only [heq]
    exact List.Sublist.refl _

theorem apply_attacks_fleet_ids_sublist (atks : List Attack) :
    ∀ fs fleet : List Ship,
      List.Sublist (ship_ids ((ECS.apply_attacks atks fs fleet).fleet))
        (ship_ids fleet) := by
  induction atks with
  | nil =>
    intro fs fleet
    simp only [ECS.apply_attacks]
    exact List.Sublist.refl _
  | cons atk rest ih =>
    intro fs fleet
    match fleet with
    | [] => simp [ECS.apply_attacks]
    | t :: ts =>
      simp only [ECS.apply_attacks]
      split
      · exact ih fs (t :: ts)
      · split
        · exact (ih _ _).trans
            (apply_damage_fleet_ids_sublist atk t.id fs (t :: ts))
        · split
          · exact (ih _ _).trans
              (apply_damage_fleet_ids_sublist atk _ fs (t :: ts))
          · exact ih fs (t :: ts)

theorem apply_attacks_fs_ids_sublist (atks : List Attack) :
    ∀ fs fleet : List Ship,
      List.Sublist (ship_ids ((ECS.apply_attacks atks fs fleet).firing_seq))
        (ship_ids fs) := by
  induction atks with
  | nil =>
    intro fs fleet
    simp only [ECS.apply_attacks]
    exact List.Sublist.refl _
  | cons atk rest ih =>
    intro fs fleet
    match fleet with
    | [] =>
      simp only [ECS.apply_attacks]
      exact List.Sublist.refl _
    | t :: ts =>
      simp only [ECS.apply_attacks]
      split
      · exact ih fs (t :: ts)
      · split
        · exact (ih _ _).trans
            (apply_damage_fs_ids_sublist atk t.id fs (t :: ts))
        · split
          · exact (ih _ _).trans
              (apply_damage_fs_ids_sublist atk _ fs (t :: ts))
          · exact ih fs (t :: ts)

theorem apply_attacks_armor_floor (atks : List Attack) :
    ∀ fs fleet : List Ship, (∀ s ∈ fleet, 1 ≤ s.armor) →
      ∀ x ∈ (ECS.apply_attacks atks fs fleet).fleet, 1 ≤ x.armor := by
  induction atks with
  | nil =>
    intro fs fleet hinv
    simpa [ECS.apply_attacks] using hinv
  | cons atk rest ih =>
    intro fs fleet hinv
    match fleet with
    | [] => simp [ECS.apply_attacks]
    | t :: ts =>
      simp only [ECS.apply_attacks]
      split
      · exact ih fs (t :: ts) hinv
      · split
        · exact ih _ _ (apply_damage_armor_floor atk t.id fs (t :: ts) hinv)
        · split
          · exact ih _ _ (apply_damage_armor_floor atk _ fs (t :: ts) hinv)
          · exact ih fs (t :: ts) hinv

theorem apply_attacks_no_refire (atks : List Attack) :
    ∀ fs fleet : List Ship,
      (ship_ids fleet).Nodup → (ship_ids fs).Nodup →
      ∀ tid, tid ∈ ship_ids fleet →
        tid ∉ ship_ids ((ECS.apply_attacks atks fs fleet).fleet) →
        tid ∉ ship_ids ((ECS.apply_attacks atks fs fleet).firing_seq) := by
  induction atks with
  | nil =>
    intro fs fleet hnf hns tid hmem hnot
    simp only [ECS.apply_attacks] at hnot
    exact absurd hmem hnot
  | cons atk rest ih =>
    intro fs fleet hnf hns tid hmem hnot
    match fleet with
    | [] => simp at hmem
    | t :: ts =>
      have hnts : (ship_ids ts).Nodup :=
        (List.nodup_cons.mp (by simpa using hnf)).2
      simp only [ECS.apply_attacks] at hnot ⊢
      by_cases h1 : atk.roll = 1
      · simp only [if_pos h1] at hnot ⊢
        exact ih fs (t :: ts) hnf hns tid hmem hnot
      · by_cases h6 : atk.roll = 6
        · simp only [if_neg h1, if_pos h6, apply_damage_head] at hnot ⊢
          by_cases hdes : t.armor - atk.damage < 1
          · simp only [if_pos hdes] at hnot ⊢
            by_cases hm2 : tid ∈ ship_ids ts
            · exact ih _ _ hnts
                (List.Nodup.sublist (ship_ids_eraseFirstId_sublist t.id fs)
                  hns) tid hm2 hnot
            · have htid : tid = t.id := by
                rcases List.mem_cons.mp (by simpa using hmem) with h | h
                · exact h
                · exact absurd h hm2
              subst htid
              intro hcon
              exact not_mem_ids_erase_self t.id fs hns
                ((apply_attacks_fs_ids_sublist rest _ _).subset hcon)
          · simp only [if_neg hdes] at hnot ⊢
            refine ih _ _ (by simpa using hnf) hns tid (by simpa using hmem)
              hnot
        · simp only [if_neg h1, if_neg h6] at hnot ⊢
          rcases hfind : (t :: ts).find?
              (fun s =>
                decide (5 < (atk.roll : Int) + atk.bonus - s.shield)) with
            _ | s0
          · simp only [hfind] at hnot ⊢
            exact ih fs (t :: ts) hnf hns tid hmem hnot
          · simp only [hfind] at hnot ⊢
            rcases apply_damage_cases atk s0.id fs (t :: ts) with ⟨-, heq⟩ |
              ⟨u, -, ⟨-, heq⟩ | ⟨-, heq⟩⟩
            · simp only [heq] at hnot ⊢
              exact ih fs (t :: ts) hnf hns tid hmem hnot
            · simp only [heq, erase_updateFirst_armor] at hnot ⊢
              by_cases hm2 : tid ∈ ship_ids (eraseFirstId s0.id (t :: ts))
              · exact ih _ _
                  (List.Nodup.sublist
                    (ship_ids_eraseFirstId_sublist s0.id (t :: ts)) hnf)
                  (List.Nodup.sublist
                    (ship_ids_eraseFirstId_sublist s0.id fs) hns)
                  tid hm2 hnot
              · have htid : tid = s0.id := by
                  by_contra hne
                  exact hm2 (mem_ids_erase_of_ne hne (t :: ts) hmem)
                subst htid
                intro hcon
                exact not_mem_ids_erase_self s0.id fs hns
                  ((apply_attacks_fs_ids_sublist rest _ _).subset hcon)
            · simp only [heq] at hnot ⊢
              refine ih _ _ ?_ hns tid ?_ hnot
              · rw [ship_ids_updateFirst_armor]
                exact hnf
              · rw [ship_ids_updateFirst_armor]
                exact hmem

/-- C3: applying damage subtracts the attack's damage from the targeted
ship's armor, and a ship whose armor drops below 1 is removed both from its
fleet and from the round's remaining firing queue; consequently, every ship
still present in the fleet after a batch of attacks has armor at least 1,
and a ship that disappeared from the fleet never appears in the surviving
firing queue (it cannot fire later in the round). -/
theorem damage_destruction_invariant :
    (∀ (atk : Attack) (tid : Nat) (fs fleet : List Ship) (s0 : Ship),
      fleet.find? (fun s => s.id == tid) = some s0 →
      (s0.armor - atk.damage < 1 →
        ECS.apply_damage atk tid fs fleet =
          ⟨eraseFirstId tid fs,
            eraseFirstId tid
              (updateFirst tid
                (fun u => { u with armor := u.armor - atk.damage }) fleet),
            [Event.hit atk.roll atk.bonus atk.damage tid,
              Event.destroyed tid]⟩) ∧
      (1 ≤ s0.armor - atk.damage →
        ECS.apply_damage atk tid fs fleet =
          ⟨fs,
            updateFirst tid
              (fun u => { u with armor := u.armor - atk.damage }) fleet,
            [Event.hit atk.roll atk.bonus atk.damage tid]⟩)) ∧
    (∀ (atks : List Attack) (fs fleet : List Ship),
      (∀ s ∈ fleet, 1 ≤ s.armor) →
      ∀ x ∈ (ECS.apply_attacks atks fs fleet).fleet, 1 ≤ x.armor) ∧
    (∀ (atks : List Attack) (fs fleet : List Ship),
      (ship_ids fleet).Nodup → (ship_ids fs).Nodup →
      ∀ tid, tid ∈ ship_ids fleet →
        tid ∉ ship_ids ((ECS.apply_attacks atks fs fleet).fleet) →
        tid ∉ ship_ids ((ECS.apply_attacks atks fs fleet).firing_seq)) := by
  refine ⟨?_, ?_, ?_⟩
  · intro atk tid fs fleet s0 hfind
    rcases apply_damage_cases atk tid fs fleet with ⟨hf0, -⟩ |
      ⟨u, hf0, ⟨hdes, heq⟩ | ⟨hsur, heq⟩⟩
    · rw [hfind] at hf0
      cases hf0
    · rw [hfind] at hf0
      cases hf0
      exact ⟨fun _ => heq, fun h => absurd hdes (by omega)⟩
    · rw [hfind] at hf0
      cases hf0
      exact ⟨fun h => absurd hsur (by omega), fun _ => heq⟩
  · exact fun atks fs fleet => apply_attacks_armor_floor atks fs fleet
  · exact fun atks fs fleet => apply_attacks_no_refire atks fs fleet

/-- Witness for `damage_destruction_invariant`: a damage-2 hit leaves the
sample armor-3 ship at armor 1 and in place; a damage-5 roll-6 attack
destroys it and removes it from both the fleet and the firing queue. -/
theorem damage_destruction_invariant_witness :
    (ECS.apply_damage ⟨6, 0, 2⟩ 0 [] [wShip] =
      ⟨[],
        updateFirst 0 (fun u => { u with armor := u.armor - (2 : Int) })
          [wShip],
        [Event.hit 6 0 2 0]⟩) ∧
    (∀ x ∈ (ECS.apply_attacks [⟨6, 0, 2⟩] [] [wShip]).fleet, 1 ≤ x.armor) ∧
    (0 ∉ ship_ids
      ((ECS.apply_attacks [⟨6, 0, 5⟩] [wShip] [wShip]).firing_seq)) :=
  ⟨((damage_destruction_invariant.1 ⟨6, 0, 2⟩ 0 [] [wShip] wShip
      (by decide)).2 (by decide)),
    damage_destruction_invariant.2.1 [⟨6, 0, 2⟩] [] [wShip] (by decide),
    damage_destruction_invariant.2.2 [⟨6, 0, 5⟩] [wShip] [wShip] (by decide)
      (by decide) 0 (by decide) (by decide)⟩

/-- Selector for conventional weapon parts. -/
def conventional_weapon (p : Part) : Bool := p.is_weapon && !p.is_missile

/-- Selector for all weapon parts, missile launchers included. -/
def any_weapon (p : Part) : Bool := p.is_weapon

/-- Total `damage * nshots` over the parts matching a selector. -/
def parts_damage (sel : Part → Bool) (ps : List Part) : Int :=
  ((ps.filter sel).map (fun p => p.damage * (p.nshots : Int))).sum

theorem integrate_part_missiles_fired (s : Ship) (p : Part) :
    (Ship.integrate_part s p).missiles_fired = s.missiles_fired := by
  by_cases hd : p.is_drive <;> by_cases hw : p.is_weapon <;>
    by_cases hm : p.is_missile <;> by_cases hf : s.missiles_fired <;>
    simp [Ship.integrate_part, hd, hw, hm, hf]

theorem foldl_integrate_missiles_fired (ps : List Part) :
    ∀ acc : Ship,
      (ps.foldl Ship.integrate_part acc).missiles_fired =
        acc.missiles_fired := by
  induction ps with
  | nil => intro acc; rfl
  | cons p ps ih =>
    intro acc
    rw [List.foldl_cons, ih, integrate_part_missiles_fired]

theorem foldl_integrate_net_damage_fired (ps : List Part) :
    ∀ acc : Ship, acc.missiles_fired = true →
      (ps.foldl Ship.integrate_part acc).net_damage =
        acc.net_damage + parts_damage conventional_weapon ps := by
  induction ps with
  | nil => intro acc _; simp [parts_damage]
  | cons p ps ih =>
    intro acc hf
    rw [List.foldl_cons,
      ih _ (by rw [integrate_part_missiles_fired]; exact hf)]
    by_cases hd : p.is_drive <;> by_cases hw : p.is_weapon <;>
      by_cases hm : p.is_missile <;>
      simp [Ship.integrate_part, parts_damage, conventional_weapon,
        hd, hw, hm, hf] <;> omega

theorem foldl_integrate_net_damage_unfired (ps : List Part) :
    ∀ acc : Ship, acc.missiles_fired = false →
      (ps.foldl Ship.integrate_part acc).net_damage =
        acc.net_damage + parts_damage any_weapon ps := by
  induction ps with
  | nil => intro acc _; simp [parts_damage]
  | cons p ps ih =>
    intro acc hf
    rw [List.foldl_cons,
      ih _ (by rw [integrate_part_missiles_fired]; exact hf)]
    by_cases hd : p.is_drive <;> by_cases hw : p.is_weapon <;>
      by_cases hm : p.is_missile <;>
      simp [Ship.integrate_part, parts_damage, any_weapon,
        hd, hw, hm, hf] <;> omega

theorem foldl_integrate_has_weapon_fired (ps : List Part) :
    ∀ acc : Ship, acc.missiles_fired = true →
      (ps.foldl Ship.integrate_part acc).has_weapon =
        (acc.has_weapon || ps.any conventional_weapon) := by
  induction ps with
  | nil => intro acc _; simp
  | cons p ps ih =>
    intro acc hf
    rw [List.foldl_cons,
      ih _ (by rw [integrate_part_missiles_fired]; exact hf)]
    by_cases hd : p.is_drive <;> by_cases hw : p.is_weapon <;>
      by_cases hm : p.is_missile <;>
      simp [Ship.integrate_part, conventional_weapon, hd, hw, hm, hf]

theorem foldl_integrate_has_weapon_unfired (ps : List Part) :
    ∀ acc : Ship, acc.missiles_fired = false →
      (ps.foldl Ship.integrate_part acc).has_weapon =
        (acc.has_weapon || ps.any any_weapon) := by
  induction ps with
  | nil => intro acc _; simp
  | cons p ps ih =>
    intro acc hf
    rw [List.foldl_cons,
      ih _ (by rw [integrate_part_missiles_fired]; exact hf)]
    by_cases hd : p.is_drive <;> by_cases hw : p.is_weapon <;>
      by_cases hm : p.is_missile <;>
      simp [Ship.integrate_part, any_weapon, hd, hw, hm, hf]

theorem calc_kill_priority_fields (s : Ship) :
    (s.calc_kill_priority).net_damage = s.net_damage ∧
    (s.calc_kill_priority).hit_bonus = s.hit_bonus ∧
    (s.calc_kill_priority).armor = s.armor ∧
    (s.calc_kill_priority).has_weapon = s.has_weapon ∧
    (s.calc_kill_priority).missiles_fired = s.missiles_fired ∧
    (s.calc_kill_priority).parts = s.parts ∧
    (s.calc_kill_priority).kill_priority =
      (s.net_damage : Rat) * (1 + (s.hit_bonus : Rat)) / 6 /
        (s.armor : Rat) := by
  unfold Ship.calc_kill_priority
  refine ⟨rfl, rfl, rfl, rfl, rfl, rfl, rfl⟩

/-- C4: `roll_missile_attacks` on an armed ship permanently sets
`missiles_fired` and reintegrates the ship; reintegration preserves the flag,
and every recomputation of the derived stats of a ship whose missiles are
fired excludes missile-launcher parts from `net_damage` and `has_weapon` — 
while before firing they are included — and `kill_priority` is recomputed
from that (missile-free) `net_damage`. -/
theorem missile_exhaustion :
    (∀ (s : Ship) (script : List Nat), s.has_weapon = true →
      ((s.roll_missile_attacks script).1.2.missiles_fired = true ∧
        (s.roll_missile_attacks script).1.2 =
          Ship.integrate { s with missiles_fired := true })) ∧
    (∀ s : Ship, (Ship.integrate s).missiles_fired = s.missiles_fired) ∧
    (∀ s : Ship, s.missiles_fired = true →
      (Ship.integrate s).net_damage =
          parts_damage conventional_weapon s.parts ∧
        (Ship.integrate s).has_weapon = s.parts.any conventional_weapon) ∧
    (∀ s : Ship, s.missiles_fired = false →
      (Ship.integrate s).net_damage = parts_damage any_weapon s.parts ∧
        (Ship.integrate s).has_weapon = s.parts.any any_weapon) ∧
    (∀ s : Ship, (Ship.integrate s).kill_priority =
      ((Ship.integrate s).net_damage : Rat) *
        (1 + ((Ship.integrate s).hit_bonus : Rat)) / 6 /
        ((Ship.integrate s).armor : Rat)) := by
  have hpreserve : ∀ s : Ship,
      (Ship.integrate s).missiles_fired = s.missiles_fired := by
    intro s
    unfold Ship.integrate
    rw [(calc_kill_priority_fields _).2.2.2.2.1, foldl_integrate_missiles_fired]
  have hfired : ∀ s : Ship, s.missiles_fired = true →
      (Ship.integrate s).net_damage =
          parts_damage conventional_weapon s.parts ∧
        (Ship.integrate s).has_weapon = s.parts.any conventional_weapon := by
    intro s hf
    unfold Ship.integrate
    constructor
    · rw [(calc_kill_priority_fields _).1,
        foldl_integrate_net_damage_fired _ _ (by simpa using hf)]
      simp
    · rw [(calc_kill_priority_fields _).2.2.2.1,
        foldl_integrate_has_weapon_fired _ _ (by simpa using hf)]
      simp
  have hunfired : ∀ s : Ship, s.missiles_fired = false →
      (Ship.integrate s).net_damage = parts_damage any_weapon s.parts ∧
        (Ship.integrate s).has_weapon = s.parts.any any_weapon := by
    intro s hf
    unfold Ship.integrate
    constructor
    · rw [(calc_kill_priority_fields _).1,
        foldl_integrate_net_damage_unfired _ _ (by simpa using hf)]
      simp
    · rw [(calc_kill_priority_fields _).2.2.2.1,
        foldl_integrate_has_weapon_unfired _ _ (by simpa using hf)]
      simp
  refine ⟨?_, hpreserve, hfired, hunfired, ?_⟩
  · intro s script hw
    unfold Ship.roll_missile_attacks
    rw [if_pos hw]
    exact ⟨by rw [hpreserve], rfl⟩
  · intro s
    unfold Ship.integrate
    rcases calc_kill_priority_fields (s.parts.foldl Ship.integrate_part _)
      with ⟨h1, h2, h3, -, -, -, h7⟩
    rw [h1, h2, h3, h7]

/-- A conventional weapon part for concrete instantiations. -/
def wIonCannon : Part :=
  ⟨"Ion Cannon", 1, 1, -1, 0, 0, 0, 0, true, false, false⟩

/-- A missile launcher part for concrete instantiations. -/
def wMissile : Part :=
  ⟨"Plasma Missile", 2, 2, 0, 0, 0, 0, 0, true, true, false⟩

/-- An armed sample ship carrying one ion cannon and one missile launcher. -/
def wArmedShip : Ship :=
  { wShip with
    parts := [wIonCannon, wMissile],
    has_weapon := true,
    net_damage := 5 }

/-- Witness for `missile_exhaustion` on the armed sample ship: firing its
missiles sets the flag, and reintegration then counts only the ion cannon
(net damage 1) where the unfired ship counts both (net damage 5). -/
theorem missile_exhaustion_witness :
    ((wArmedShip.roll_missile_attacks [3, 4]).1.2.missiles_fired = true ∧
      (wArmedShip.roll_missile_attacks [3, 4]).1.2 =
        Ship.integrate { wArmedShip with missiles_fired := true }) ∧
    ((Ship.integrate { wArmedShip with missiles_fired := true }).net_damage =
        parts_damage conventional_weapon wArmedShip.parts ∧
      (Ship.integrate { wArmedShip with missiles_fired := true }).has_weapon =
        wArmedShip.parts.any conventional_weapon) ∧
    ((Ship.integrate wArmedShip).net_damage =
        parts_damage any_weapon wArmedShip.parts ∧
      (Ship.integrate wArmedShip).has_weapon =
        wArmedShip.parts.any any_weapon) :=
  ⟨missile_exhaustion.1 wArmedShip [3, 4] (by decide),
    missile_exhaustion.2.2.1 { wArmedShip with missiles_fired := true }
      (by decide),
    missile_exhaustion.2.2.2.1 wArmedShip (by decide)⟩

/-- A weapon part with a negative hit bonus and damage 2. -/
def cexGunA : Part := ⟨"Bad Gun A", 2, 1, 0, 0, 0, -1, 0, true, false, false⟩

/-- A weapon part with a negative hit bonus and damage 1. -/
def cexGunB : Part := ⟨"Bad Gun B", 1, 1, 0, 0, 0, -1, 0, true, false, false⟩

/-- A ship integrated with `cexGunA`: net_damage 2, hit_bonus -1, armor 1. -/
def cexShipA : Ship := Ship.integrate { wShip with id := 10, parts := [cexGunA] }

/-- A ship integrated with `cexGunB`: net_damage 1, hit_bonus -1, armor 1. -/
def cexShipB : Ship := Ship.integrate { wShip with id := 11, parts := [cexGunB] }

/-- Counterexample to C6 as stated: two integrated ships with the same hull,
shield, armor and hit_bonus, where A's net_damage strictly exceeds B's, yet
A's kill_priority is not greater than B's — the common hit bonus is -1, so
both kill priorities are 0. -/
theorem kill_priority_monotonicity_cex :
    cexShipA.hull = cexShipB.hull ∧
    cexShipA.shield = cexShipB.shield ∧
    cexShipA.armor = cexShipB.armor ∧
    cexShipA.hit_bonus = cexShipB.hit_bonus ∧
    cexShipB.net_damage < cexShipA.net_damage ∧
    ¬ cexShipB.kill_priority < cexShipA.kill_priority := by
  have hA : cexShipA.kill_priority = 0 := by
    norm_num [cexShipA, Ship.integrate, Ship.integrate_part,
      Ship.calc_kill_priority, wShip, wHull, cexGunA]
  have hB : cexShipB.kill_priority = 0 := by
    norm_num [cexShipB, Ship.integrate, Ship.integrate_part,
      Ship.calc_kill_priority, wShip, wHull, cexGunB]
  refine ⟨?_, ?_, ?_, ?_, ?_, ?_⟩
  · norm_num [cexShipA, cexShipB, Ship.integrate, Ship.integrate_part,
      Ship.calc_kill_priority, wShip, wHull, cexGunA, cexGunB]
  · norm_num [cexShipA, cexShipB, Ship.integrate, Ship.integrate_part,
      Ship.calc_kill_priority, wShip, wHull, cexGunA, cexGunB]
  · norm_num [cexShipA, cexShipB, Ship.integrate, Ship.integrate_part,
      Ship.calc_kill_priority, wShip, wHull, cexGunA, cexGunB]
  · norm_num [cexShipA, cexShipB, Ship.integrate, Ship.integrate_part,
      Ship.calc_kill_priority, wShip, wHull, cexGunA, cexGunB]
  · norm_num [cexShipA, cexShipB, Ship.integrate, Ship.integrate_part,
      Ship.calc_kill_priority, wShip, wHull, cexGunA, cexGunB]
  · rw [hA, hB]
    exact lt_irrefl 0

/-- C6 (amended): `calc_kill_priority` sets
`kill_priority = net_damage * (1 + hit_bonus) / 6 / armor`, and for any two
ships with identical hulls, shields, armor and hit_bonus, if A's net_damage
strictly exceeds B's then A's kill_priority is strictly greater — provided
`1 + hit_bonus > 0` and `armor > 0` (both automatic when hit_bonus and armor
come from nonnegative part stats, since integration starts armor at 1). -/
theorem kill_priority_monotonicity (a b : Ship)
    (hhull : a.hull = b.hull) (hsh : a.shield = b.shield)
    (harm : a.armor = b.armor) (hhb : a.hit_bonus = b.hit_bonus)
    (hpos : 0 < 1 + a.hit_bonus) (harmpos : 0 < a.armor)
    (hnd : b.net_damage < a.net_damage) :
    (Ship.calc_kill_priority a).kill_priority =
        (a.net_damage : Rat) * (1 + (a.hit_bonus : Rat)) / 6 /
          (a.armor : Rat) ∧
    (Ship.calc_kill_priority b).kill_priority <
      (Ship.calc_kill_priority a).kill_priority := by
  have hb' : (0 : Rat) < 1 + (a.hit_bonus : Rat) := by exact_mod_cast hpos
  have ha' : (0 : Rat) < (a.armor : Rat) := by exact_mod_cast harmpos
  have hnd' : (b.net_damage : Rat) < (a.net_damage : Rat) := by
    exact_mod_cast hnd
  constructor
  · rfl
  · show (b.net_damage : Rat) * (1 + (b.hit_bonus : Rat)) / 6 /
        (b.armor : Rat) <
      (a.net_damage : Rat) * (1 + (a.hit_bonus : Rat)) / 6 / (a.armor : Rat)
    rw [← harm, ← hhb]
    have hc : (0 : Rat) <
        (1 + (a.hit_bonus : Rat)) / 6 / (a.armor : Rat) :=
      div_pos (div_pos hb' (by norm_num)) ha'
    calc (b.net_damage : Rat) * (1 + (a.hit_bonus : Rat)) / 6 /
          (a.armor : Rat)
        = (b.net_damage : Rat) *
            ((1 + (a.hit_bonus : Rat)) / 6 / (a.armor : Rat)) := by ring
      _ < (a.net_damage : Rat) *
            ((1 + (a.hit_bonus : Rat)) / 6 / (a.armor : Rat)) :=
          mul_lt_mul_of_pos_right hnd' hc
      _ = (a.net_damage : Rat) * (1 + (a.hit_bonus : Rat)) / 6 /
            (a.armor : Rat) := by ring

/-- Witness for `kill_priority_monotonicity`: two armor-1 ships with hit
bonus 0 and net damage 2 versus 1. -/
theorem kill_priority_monotonicity_witness :
    (Ship.calc_kill_priority { wShip with armor := 1, net_damage := 2 }).kill_priority =
        (((2 : Int) : Rat)) * (1 + ((0 : Int) : Rat)) / 6 / (((1 : Int) : Rat)) ∧
    (Ship.calc_kill_priority { wShip with armor := 1, net_damage := 1 }).kill_priority <
      (Ship.calc_kill_priority { wShip with armor := 1, net_damage := 2 }).kill_priority :=
  kill_priority_monotonicity { wShip with armor := 1, net_damage := 2 }
    { wShip with armor := 1, net_damage := 1 } rfl rfl rfl rfl
    (by decide) (by decide) (by decide)

theorem kp_map_updateFirst_armor (tid : Nat) (d : Int) (l : List Ship) :
    (updateFirst tid (fun u => { u with armor := u.armor - d }) l).map
        (fun s => s.kill_priority) =
      l.map (fun s => s.kill_priority) := by
  induction l with
  | nil => rfl
  | cons s rest ih =>
    simp only [updateFirst]
    split
    · simp
    · simp only [List.map_cons, ih]

theorem apply_damage_kp_map_sublist (atk : Attack) (tid : Nat)
    (fs fleet : List Ship) :
    List.Sublist
      (((ECS.apply_damage atk tid fs fleet).fleet).map
        (fun s => s.kill_priority))
      (fleet.map (fun s => s.kill_priority)) := by
  rcases apply_damage_cases atk tid fs fleet with ⟨-, heq⟩ |
    ⟨s0, -, ⟨-, heq⟩ | ⟨-, heq⟩⟩
  · simp only [heq]
    exact List.Sublist.refl _
  · simp only [heq, erase_updateFirst_armor]
    exact (eraseFirstId_sublist tid fleet).map _
  · simp only [heq, kp_map_updateFirst_armor]
    exact List.Sublist.refl _

theorem apply_attacks_kp_map_sublist (atks : List Attack) :
    ∀ fs fleet : List Ship,
      List.Sublist
        (((ECS.apply_attacks atks fs fleet).fleet).map
          (fun s => s.kill_priority))
        (fleet.map (fun s => s.kill_priority)) := by
  induction atks with
  | nil =>
    intro fs fleet
    simp only [ECS.apply_attacks]
    exact List.Sublist.refl _
  | cons atk rest ih =>
    intro fs fleet
    match fleet with
    | [] => simp [ECS.apply_attacks]
    | t :: ts =>
      simp only [ECS.apply_attacks]
      split
      · exact ih fs (t :: ts)
      · split
        · exact (ih _ _).trans
            (apply_damage_kp_map_sublist atk t.id fs (t :: ts))
        · split
          · exact (ih _ _).trans
              (apply_damage_kp_map_sublist atk _ fs (t :: ts))
          · exact ih fs (t :: ts)

/-- C10: a non-destroying `apply_damage` decrements the target's armor but
leaves every stored `kill_priority` field untouched (it is not recomputed
from the reduced armor), and removals preserve the survivors' relative
order; hence a batch of attacks keeps a descending-`kill_priority` fleet
descending, and the ship at position 0 afterwards still has the greatest
stored `kill_priority` — the one computed at the last integration/sort, not
one recomputed from current armor. -/
theorem stale_kill_priority_targeting :
    (∀ (atk : Attack) (tid : Nat) (fs fleet : List Ship) (s0 : Ship),
      fleet.find? (fun s => s.id == tid) = some s0 →
      1 ≤ s0.armor - atk.damage →
      (ECS.apply_damage atk tid fs fleet).fleet =
          updateFirst tid
            (fun u => { u with armor := u.armor - atk.damage }) fleet ∧
        ((ECS.apply_damage atk tid fs fleet).fleet).map
            (fun s => s.kill_priority) =
          fleet.map (fun s => s.kill_priority)) ∧
    (∀ (atks : List Attack) (fs fleet : List Ship),
      List.Sublist
        (((ECS.apply_attacks atks fs fleet).fleet).map
          (fun s => s.kill_priority))
        (fleet.map (fun s => s.kill_priority))) ∧
    (∀ (atks : List Attack) (fs fleet : List Ship),
      fleet.Pairwise
        (fun a b => b.kill_priority ≤ a.kill_priority) →
      ((ECS.apply_attacks atks fs fleet).fleet).Pairwise
          (fun a b => b.kill_priority ≤ a.kill_priority) ∧
        ∀ (t : Ship) (ts : List Ship),
          (ECS.apply_attacks atks fs fleet).fleet = t :: ts →
          ∀ x ∈ (ECS.apply_attacks atks fs fleet).fleet,
            x.kill_priority ≤ t.kill_priority) := by
  refine ⟨?_, apply_attacks_kp_map_sublist, ?_⟩
  · intro atk tid fs fleet s0 hfind hsur
    rcases apply_damage_cases atk tid fs fleet with ⟨hf0, -⟩ |
      ⟨u, hf0, ⟨hdes, heq⟩ | ⟨-, heq⟩⟩
    · rw [hfind] at hf0
      cases hf0
    · rw [hfind] at hf0
      cases hf0
      omega
    · rw [hfind] at hf0
      cases hf0
      simp only [heq]
      exact ⟨trivial, kp_map_updateFirst_armor tid atk.damage fleet⟩
  · intro atks fs fleet hsorted
    have hmap : (fleet.map (fun s => s.kill_priority)).Pairwise
        (fun a b => b ≤ a) :=
      (List.pairwise_map).mpr hsorted
    have hres : (((ECS.apply_attacks atks fs fleet).fleet).map
        (fun s => s.kill_priority)).Pairwise (fun a b => b ≤ a) :=
      List.Pairwise.sublist (apply_attacks_kp_map_sublist atks fs fleet) hmap
    have hres' : ((ECS.apply_attacks atks fs fleet).fleet).Pairwise
        (fun a b => b.kill_priority ≤ a.kill_priority) :=
      (List.pairwise_map).mp hres
    refine ⟨hres', ?_⟩
    intro t ts hcons x hx
    rw [hcons] at hres' hx
    rcases List.mem_cons.mp hx with rfl | hx'
    · exact le_refl _
    · exact (List.pairwise_cons.mp hres').1 x hx'

/-- Witness for `stale_kill_priority_targeting`: a damage-1 hit on the
armor-3 head ship of a two-ship fleet leaves both stored kill priorities
(2 and 1) in place, and the fleet stays sorted with the head maximal. -/
theorem stale_kill_priority_targeting_witness :
    ((ECS.apply_damage ⟨6, 0, 1⟩ 0 [] [{ wShip with kill_priority := 2 },
        { wShip with id := 7, kill_priority := 1 }]).fleet =
      updateFirst 0 (fun u => { u with armor := u.armor - (1 : Int) })
        [{ wShip with kill_priority := 2 },
          { wShip with id := 7, kill_priority := 1 }] ∧
      ((ECS.apply_damage ⟨6, 0, 1⟩ 0 [] [{ wShip with kill_priority := 2 },
          { wShip with id := 7, kill_priority := 1 }]).fleet).map
          (fun s => s.kill_priority) =
        ([{ wShip with kill_priority := 2 },
          { wShip with id := 7, kill_priority := 1 }]).map
          (fun s => s.kill_priority)) ∧
    (((ECS.apply_attacks [⟨6, 0, 1⟩] [] [{ wShip with kill_priority := 2 },
        { wShip with id := 7, kill_priority := 1 }]).fleet).Pairwise
        (fun a b => b.kill_priority ≤ a.kill_priority) ∧
      ∀ (t : Ship) (ts : List Ship),
        (ECS.apply_attacks [⟨6, 0, 1⟩] []
            [{ wShip with kill_priority := 2 },
              { wShip with id := 7, kill_priority := 1 }]).fleet = t :: ts →
        ∀ x ∈ (ECS.apply_attacks [⟨6, 0, 1⟩] []
            [{ wShip with kill_priority := 2 },
              { wShip with id := 7, kill_priority := 1 }]).fleet,
          x.kill_priority ≤ t.kill_priority) :=
  ⟨stale_kill_priority_targeting.1 ⟨6, 0, 1⟩ 0 []
      [{ wShip with kill_priority := 2 },
        { wShip with id := 7, kill_priority := 1 }]
      { wShip with kill_priority := 2 } (by decide) (by decide),
    stale_kill_priority_targeting.2.2 [⟨6, 0, 1⟩] []
      [{ wShip with kill_priority := 2 },
        { wShip with id := 7, kill_priority := 1 }]
      (by decide)⟩

theorem mem_hull_keys_aux (k : String) (fleet : List Ship) :
    ∀ acc : List String,
      (k ∈ fleet.foldl
          (fun acc s =>
            if s.hull.name ∈ acc then acc else acc ++ [s.hull.name]) acc ↔
        k ∈ acc ∨ ∃ s ∈ fleet, s.hull.name = k) := by
  induction fleet with
  | nil => intro acc; simp
  | cons s rest ih =>
    intro acc
    rw [List.foldl_cons, ih]
    by_cases hmem : s.hull.name ∈ acc
    · rw [if_pos hmem]
      have hkey : s.hull.name = k → k ∈ acc := fun h => h ▸ hmem
      simp only [List.mem_cons]
      constructor
      · rintro (h | ⟨u, hu, hk⟩)
        · exact Or.inl h
        · exact Or.inr ⟨u, Or.inr hu, hk⟩
      · rintro (h | ⟨u, rfl | hu, hk⟩)
        · exact Or.inl h
        · exact Or.inl (hkey hk)
        · exact Or.inr ⟨u, hu, hk⟩
    · rw [if_neg hmem]
      simp only [List.mem_append, List.mem_singleton, List.mem_cons]
      constructor
      · rintro ((h | h | h) | ⟨u, hu, hk⟩)
        · exact Or.inl h
        · exact Or.inr ⟨s, Or.inl rfl, h.symm⟩
        · exact absurd h (List.not_mem_nil k)
        · exact Or.inr ⟨u, Or.inr hu, hk⟩
      · rintro (h | ⟨u, rfl | hu, hk⟩)
        · exact Or.inl (Or.inl h)
        · exact Or.inl (Or.inr (Or.inl hk.symm))
        · exact Or.inr ⟨u, hu, hk⟩

theorem map_fst_mk_keys (l : List String) :
    (l.map (fun k => (k, ([] : List Nat)))).map Prod.fst = l := by
  induction l with
  | nil => rfl
  | cons a l ih => simp [ih]

theorem mem_hull_keys (k : String) (fleet : List Ship) :
    k ∈ hull_keys fleet ↔ ∃ s ∈ fleet, s.hull.name = k := by
  unfold hull_keys
  rw [mem_hull_keys_aux]
  simp

/-- C8: recording a decisive win bumps exactly the winner's counter (the
defender's when the winner's id equals the stored defender id, the
attacker's otherwise), leaves the other win counter and the stalemate
counter unchanged, and appends to each hull type recorded on the winner's
side the count of surviving ships of that type in the winning fleet; the
recorded hull types are exactly those present in the corresponding template
fleet; recording a stalemate bumps only the stalemate counter. -/
theorem scoreboard_recording (sb : Scoreboard) (winner : Player)
    (defender attacker : Player) :
    (winner.id = sb.defender_id →
      (sb.record_victory winner).def_wins = sb.def_wins + 1 ∧
      (sb.record_victory winner).atk_wins = sb.atk_wins ∧
      (sb.record_victory winner).stalemates = sb.stalemates ∧
      (sb.record_victory winner).atk_ships_remaining =
        sb.atk_ships_remaining ∧
      (sb.record_victory winner).def_ships_remaining =
        sb.def_ships_remaining.map
          (fun kv => (kv.1, kv.2 ++ [count_hull winner.fleet kv.1]))) ∧
    (winner.id ≠ sb.defender_id →
      (sb.record_victory winner).atk_wins = sb.atk_wins + 1 ∧
      (sb.record_victory winner).def_wins = sb.def_wins ∧
      (sb.record_victory winner).stalemates = sb.stalemates ∧
      (sb.record_victory winner).def_ships_remaining =
        sb.def_ships_remaining ∧
      (sb.record_victory winner).atk_ships_remaining =
        sb.atk_ships_remaining.map
          (fun kv => (kv.1, kv.2 ++ [count_hull winner.fleet kv.1]))) ∧
    ((sb.record_stalemate).stalemates = sb.stalemates + 1 ∧
      (sb.record_stalemate).def_wins = sb.def_wins ∧
      (sb.record_stalemate).atk_wins = sb.atk_wins ∧
      (sb.record_stalemate).def_ships_remaining = sb.def_ships_remaining ∧
      (sb.record_stalemate).atk_ships_remaining = sb.atk_ships_remaining) ∧
    ((Scoreboard.init defender attacker).defender_id = defender.id ∧
      (∀ k, k ∈ ((Scoreboard.init defender attacker).def_ships_remaining).map
          Prod.fst ↔ ∃ s ∈ defender.fleet, s.hull.name = k) ∧
      (∀ k, k ∈ ((Scoreboard.init defender attacker).atk_ships_remaining).map
          Prod.fst ↔ ∃ s ∈ attacker.fleet, s.hull.name = k)) := by
  refine ⟨?_, ?_, ?_, ?_⟩
  · intro hid
    unfold Scoreboard.record_victory
    rw [if_pos hid]
    exact ⟨rfl, rfl, rfl, rfl, rfl⟩
  · intro hid
    unfold Scoreboard.record_victory
    rw [if_neg hid]
    exact ⟨rfl, rfl, rfl, rfl, rfl⟩
  · exact ⟨rfl, rfl, rfl, rfl, rfl⟩
  · refine ⟨rfl, ?_, ?_⟩
    · intro k
      unfold Scoreboard.init
      rw [map_fst_mk_keys]
      exact mem_hull_keys k defender.fleet
    · intro k
      unfold Scoreboard.init
      rw [map_fst_mk_keys]
      exact mem_hull_keys k attacker.fleet

/-- Witness for `scoreboard_recording` on a freshly initialised scoreboard:
the defender (id 1) winning with one surviving ship bumps only the defender
counter and appends the survivor count 1 for the Interceptor hull type. -/
theorem scoreboard_recording_witness :
    ((Scoreboard.init ⟨1, true, [wShip]⟩
        ⟨2, false, [{ wShip with id := 5, owner_id := 2 }]⟩).record_victory
          ⟨1, true, [wShip]⟩).def_wins =
      (Scoreboard.init ⟨1, true, [wShip]⟩
        ⟨2, false, [{ wShip with id := 5, owner_id := 2 }]⟩).def_wins + 1 ∧
    ((Scoreboard.init ⟨1, true, [wShip]⟩
        ⟨2, false, [{ wShip with id := 5, owner_id := 2 }]⟩).record_victory
          ⟨1, true, [wShip]⟩).atk_wins =
      (Scoreboard.init ⟨1, true, [wShip]⟩
        ⟨2, false, [{ wShip with id := 5, owner_id := 2 }]⟩).atk_wins ∧
    ((Scoreboard.init ⟨1, true, [wShip]⟩
        ⟨2, false, [{ wShip with id := 5, owner_id := 2 }]⟩).record_victory
          ⟨1, true, [wShip]⟩).stalemates =
      (Scoreboard.init ⟨1, true, [wShip]⟩
        ⟨2, false, [{ wShip with id := 5, owner_id := 2 }]⟩).stalemates ∧
    ((Scoreboard.init ⟨1, true, [wShip]⟩
        ⟨2, false, [{ wShip with id := 5, owner_id := 2 }]⟩).record_victory
          ⟨1, true, [wShip]⟩).atk_ships_remaining =
      (Scoreboard.init ⟨1, true, [wShip]⟩
        ⟨2, false, [{ wShip with id := 5, owner_id := 2 }]⟩).atk_ships_remaining ∧
    ((Scoreboard.init ⟨1, true, [wShip]⟩
        ⟨2, false, [{ wShip with id := 5, owner_id := 2 }]⟩).record_victory
          ⟨1, true, [wShip]⟩).def_ships_remaining =
      ((Scoreboard.init ⟨1, true, [wShip]⟩
        ⟨2, false, [{ wShip with id := 5, owner_id := 2 }]⟩).def_ships_remaining).map
          (fun kv => (kv.1, kv.2 ++ [count_hull [wShip] kv.1])) :=
  (scoreboard_recording
    (Scoreboard.init ⟨1, true, [wShip]⟩
      ⟨2, false, [{ wShip with id := 5, owner_id := 2 }]⟩)
    ⟨1, true, [wShip]⟩ ⟨1, true, [wShip]⟩
    ⟨2, false, [{ wShip with id := 5, owner_id := 2 }]⟩).1 (by decide)

/-- C7: every simulation trial runs on deep copies of the template players;
the templates returned after any number of trials are the originals
unchanged, and the (n+1)-trial run resolves its first trial on copies of the
templates and recurses on the untouched templates — so armor loss, ship
destruction and missile exhaustion inside one trial's clones are invisible
to every other trial and to the templates. -/
theorem trial_isolation (defender attacker : Player) :
    (∀ (n : Nat) (script : List Nat) (results : Nat × Nat × Nat),
      (ECS.run_simulations defender attacker n script results).2.1 =
          defender ∧
        (ECS.run_simulations defender attacker n script results).2.2.1 =
          attacker) ∧
    (∀ (n : Nat) (script : List Nat) (results : Nat × Nat × Nat),
      ECS.run_simulations defender attacker (n + 1) script results =
        ECS.run_simulations defender attacker n
          (ECS.simulate_combat (deepcopy defender) (deepcopy attacker)
            script).script
          (record_sim_result results
            (ECS.simulate_combat (deepcopy defender) (deepcopy attacker)
              script).outcome)) ∧
    (deepcopy defender = defender ∧ deepcopy attacker = attacker) := by
  refine ⟨?_, ?_, rfl, rfl⟩
  · intro n
    induction n with
    | zero => intro script results; exact ⟨rfl, rfl⟩
    | succ n ih =>
      intro script results
      rw [ECS.run_simulations]
      exact ih _ _
  · intro n script results
    rw [ECS.run_simulations]

/-- C9: the die script is the only source of nondeterminism — two combats
run from equal fleets with equal scripted die sequences produce identical
results: the same missile-phase trace, the same round-by-round event traces
(attacks, hits and destructions in order) and the same terminal
classification. -/
theorem deterministic_replay (d1 d2 a1 a2 : Player) (s1 s2 : List Nat)
    (hd : d1 = d2) (ha : a1 = a2) (hs : s1 = s2) :
    ECS.simulate_combat d1 a1 s1 = ECS.simulate_combat d2 a2 s2 ∧
    (ECS.simulate_combat d1 a1 s1).missile_trace =
        (ECS.simulate_combat d2 a2 s2).missile_trace ∧
    (ECS.simulate_combat d1 a1 s1).round_traces =
        (ECS.simulate_combat d2 a2 s2).round_traces ∧
    (ECS.simulate_combat d1 a1 s1).outcome =
      (ECS.simulate_combat d2 a2 s2).outcome := by
  subst hd
  subst ha
  subst hs
  exact ⟨rfl, rfl, rfl, rfl⟩

/-- Witness for `deterministic_replay` at concrete players and a concrete
scripted die sequence. -/
theorem deterministic_replay_witness :
    ECS.simulate_combat ⟨1, true, [wShip]⟩
        ⟨2, false, [{ wShip with id := 5, owner_id := 2 }]⟩ [4, 2, 6] =
      ECS.simulate_combat ⟨1, true, [wShip]⟩
        ⟨2, false, [{ wShip with id := 5, owner_id := 2 }]⟩ [4, 2, 6] ∧
    (ECS.simulate_combat ⟨1, true, [wShip]⟩
        ⟨2, false, [{ wShip with id := 5, owner_id := 2 }]⟩
        [4, 2, 6]).missile_trace =
      (ECS.simulate_combat ⟨1, true, [wShip]⟩
        ⟨2, false, [{ wShip with id := 5, owner_id := 2 }]⟩
        [4, 2, 6]).missile_trace ∧
    (ECS.simulate_combat ⟨1, true, [wShip]⟩
        ⟨2, false, [{ wShip with id := 5, owner_id := 2 }]⟩
        [4, 2, 6]).round_traces =
      (ECS.simulate_combat ⟨1, true, [wShip]⟩
        ⟨2, false, [{ wShip with id := 5, owner_id := 2 }]⟩
        [4, 2, 6]).round_traces ∧
    (ECS.simulate_combat ⟨1, true, [wShip]⟩
        ⟨2, false, [{ wShip with id := 5, owner_id := 2 }]⟩
        [4, 2, 6]).outcome =
      (ECS.simulate_combat ⟨1, true, [wShip]⟩
        ⟨2, false, [{ wShip with id := 5, owner_id := 2 }]⟩
        [4, 2, 6]).outcome :=
  deterministic_replay ⟨1, true, [wShip]⟩ ⟨1, true, [wShip]⟩
    ⟨2, false, [{ wShip with id := 5, owner_id := 2 }]⟩
    ⟨2, false, [{ wShip with id := 5, owner_id := 2 }]⟩
    [4, 2, 6] [4, 2, 6] rfl rfl rfl

theorem write_back_length (u l : List Ship) :
    (write_back u l).length = l.length := by
  unfold write_back
  induction u generalizing l with
  | nil => rfl
  | cons x xs ih =>
    rw [List.foldl_cons, ih]
    exact List.length_map _ _

theorem apply_attacks_fleet_length_le (atks : List Attack)
    (fs fleet : List Ship) :
    (ECS.apply_attacks atks fs fleet).fleet.length ≤ fleet.length := by
  have h := (apply_attacks_fleet_ids_sublist atks fs fleet).length_le
  simpa [ship_ids] using h

theorem roll_attacks_loop_fleet_len (fm : Bool) :
    ∀ (n : Nat) (seq : List Ship), seq.length ≤ n → ∀ st : RoundState,
      (roll_attacks_loop fm st seq).defender.fleet.length ≤
          st.defender.fleet.length ∧
        (roll_attacks_loop fm st seq).attacker.fleet.length ≤
          st.attacker.fleet.length := by
  intro n
  induction n with
  | zero =>
    intro seq hlen st
    have hseq : seq = [] := List.length_eq_zero.mp (Nat.le_zero.mp hlen)
    subst hseq
    rw [roll_attacks_loop]
    simp [pop_group]
  | succ n ih =>
    intro seq hlen st
    rw [roll_attacks_loop]
    split
    · exact ⟨le_refl _, le_refl _⟩
    · split
      · exact ⟨le_refl _, le_refl _⟩
      · rename_i lead grp seq1 hpg
        have hlt := pop_group_length hpg
        have hseq1 : seq1.length ≤ n := by omega
        have hstep : ∀ (atts : List Attack) (fleet : List Ship),
            (ECS.apply_attacks atts seq1 fleet).firing_seq.length ≤ n :=
          fun atts fleet =>
            le_trans (apply_attacks_firing_seq_length_le atts seq1 fleet)
              hseq1
        split
        · dsimp only
          split
          · exact ⟨le_trans (ih seq1 hseq1 _).1
                (le_of_eq (write_back_length _ _)),
              le_trans (ih seq1 hseq1 _).2
                (le_of_eq (write_back_length _ _))⟩
          · split
            · exact ⟨le_trans (ih _ (hstep _ _) _).1
                  (le_of_eq (write_back_length _ _)),
                le_trans (ih _ (hstep _ _) _).2
                  (le_trans (apply_attacks_fleet_length_le _ _ _)
                    (le_of_eq (write_back_length _ _)))⟩
            · exact ⟨le_trans (ih _ (hstep _ _) _).1
                  (le_trans (apply_attacks_fleet_length_le _ _ _)
                    (le_of_eq (write_back_length _ _))),
                le_trans (ih _ (hstep _ _) _).2
                  (le_of_eq (write_back_length _ _))⟩
        · dsimp only
          split
          · exact ⟨(ih seq1 hseq1 _).1, (ih seq1 hseq1 _).2⟩
          · split
            · exact ⟨(ih _ (hstep _ _) _).1,
                le_trans (ih _ (hstep _ _) _).2
                  (apply_attacks_fleet_length_le _ _ _)⟩
            · exact ⟨le_trans (ih _ (hstep _ _) _).1
                  (apply_attacks_fleet_length_le _ _ _),
                (ih _ (hstep _ _) _).2⟩

theorem roll_attacks_fleet_len (fm : Bool) (d a : Player) (s : List Nat) :
    (ECS.roll_attacks fm d a s).defender.fleet.length ≤ d.fleet.length ∧
      (ECS.roll_attacks fm d a s).attacker.fleet.length ≤ a.fleet.length := by
  unfold ECS.roll_attacks
  exact roll_attacks_loop_fleet_len fm (merged_firing_seq d a).length
    (merged_firing_seq d a) (le_refl _) ⟨d, a, s, []⟩

theorem run_rounds_fleet_len :
    ∀ (n : Nat) (d a : Player) (s : List Nat),
      (ECS.run_rounds n d a s).defender.fleet.length ≤ d.fleet.length ∧
        (ECS.run_rounds n d a s).attacker.fleet.length ≤ a.fleet.length := by
  intro n
  induction n with
  | zero => intro d a s; exact ⟨le_refl _, le_refl _⟩
  | succ n ih =>
    intro d a s
    rw [ECS.run_rounds]
    split
    · exact ⟨le_refl _, le_refl _⟩
    · exact ⟨le_trans (ih _ _ _).1 (roll_attacks_fleet_len false d a s).1,
        le_trans (ih _ _ _).2 (roll_attacks_fleet_len false d a s).2⟩

theorem run_rounds_full :
    ∀ (n : Nat) (d a : Player) (s : List Nat),
      (ECS.run_rounds n d a s).defender.fleet ≠ [] →
      (ECS.run_rounds n d a s).attacker.fleet ≠ [] →
      (ECS.run_rounds n d a s).rounds.length = n := by
  intro n
  induction n with
  | zero => intro d a s _ _; rfl
  | succ n ih =>
    intro d a s h1 h2
    rw [ECS.run_rounds] at h1 h2 ⊢
    by_cases hempty : d.fleet = [] ∨ a.fleet = []
    · rw [if_pos hempty] at h1 h2
      dsimp only at h1 h2
      rcases hempty with h | h
      · exact absurd h h1
      · exact absurd h h2
    · rw [if_neg hempty] at h1 h2 ⊢
      dsimp only at h1 h2 ⊢
      rw [List.length_cons, ih _ _ _ h1 h2]

theorem classify_outcome (rr : RoundsState) :
    ((if rr.defender.fleet.length < 1 then Outcome.attacker_wins
      else if rr.attacker.fleet.length < 1 then Outcome.defender_wins
      else Outcome.stalemate) = Outcome.attacker_wins ↔
        rr.defender.fleet = []) ∧
    ((if rr.defender.fleet.length < 1 then Outcome.attacker_wins
      else if rr.attacker.fleet.length < 1 then Outcome.defender_wins
      else Outcome.stalemate) = Outcome.defender_wins ↔
        rr.defender.fleet ≠ [] ∧ rr.attacker.fleet = []) ∧
    ((if rr.defender.fleet.length < 1 then Outcome.attacker_wins
      else if rr.attacker.fleet.length < 1 then Outcome.defender_wins
      else Outcome.stalemate) = Outcome.stalemate ↔
        rr.defender.fleet ≠ [] ∧ rr.attacker.fleet ≠ []) := by
  by_cases h1 : rr.defender.fleet.length < 1
  · have hd : rr.defender.fleet = [] := by
      cases hf : rr.defender.fleet with
      | nil => rfl
      | cons x xs => rw [hf] at h1; simp at h1
    rw [if_pos h1]
    simp [hd]
  · have hd : rr.defender.fleet ≠ [] := by
      intro hf
      rw [hf] at h1
      simp at h1
    rw [if_neg h1]
    by_cases h2 : rr.attacker.fleet.length < 1
    · have ha : rr.attacker.fleet = [] := by
        cases hf : rr.attacker.fleet with
        | nil => rfl
        | cons x xs => rw [hf] at h2; simp at h2
      rw [if_pos h2]
      simp [hd, ha]
    · have ha : rr.attacker.fleet ≠ [] := by
        intro hf
        rw [hf] at h2
        simp at h2
      rw [if_neg h2]
      simp [hd, ha]

theorem sort_fleet_length (p : Player) :
    (p.sort_fleet).fleet.length = p.fleet.length := by
  unfold Player.sort_fleet
  exact List.length_insertionSort _ _

/-- C5: neither fleet's size ever increases across a combat — each phase
(`roll_attacks`) and the whole of `simulate_combat` can only shrink the
fleets; the round loop stops exactly when a fleet is empty or the round
counter reaches the 1000 cap (at most 999 conventional rounds after round
counting starts at 1); an empty defender fleet is classified as the
attacker's victory, an empty attacker fleet (with a surviving defender) as
the defender's victory, and the cap with both fleets non-empty — in which
case all 999 rounds were executed — as a stalemate. -/
theorem monotonic_shrinkage_and_termination (defender attacker : Player)
    (script : List Nat) :
    ((ECS.simulate_combat defender attacker script).defender.fleet.length ≤
        defender.fleet.length ∧
      (ECS.simulate_combat defender attacker script).attacker.fleet.length ≤
        attacker.fleet.length) ∧
    (∀ (fm : Bool) (d a : Player) (s : List Nat),
      (ECS.roll_attacks fm d a s).defender.fleet.length ≤ d.fleet.length ∧
        (ECS.roll_attacks fm d a s).attacker.fleet.length ≤
          a.fleet.length) ∧
    (∀ (d a : Player) (s : List Nat),
      ECS.run_rounds 0 d a s = ⟨d, a, s, []⟩) ∧
    (∀ (n : Nat) (d a : Player) (s : List Nat),
      d.fleet = [] ∨ a.fleet = [] → ECS.run_rounds n d a s = ⟨d, a, s, []⟩) ∧
    (∀ (n : Nat) (d a : Player) (s : List Nat),
      d.fleet ≠ [] → a.fleet ≠ [] →
      ECS.run_rounds (n + 1) d a s =
        ⟨(ECS.run_rounds n (ECS.roll_attacks false d a s).defender
            (ECS.roll_attacks false d a s).attacker
            (ECS.roll_attacks false d a s).script).defender,
          (ECS.run_rounds n (ECS.roll_attacks false d a s).defender
            (ECS.roll_attacks false d a s).attacker
            (ECS.roll_attacks false d a s).script).attacker,
          (ECS.run_rounds n (ECS.roll_attacks false d a s).defender
            (ECS.roll_attacks false d a s).attacker
            (ECS.roll_attacks false d a s).script).script,
          (ECS.roll_attacks false d a s).trace ::
            (ECS.run_rounds n (ECS.roll_attacks false d a s).defender
              (ECS.roll_attacks false d a s).attacker
              (ECS.roll_attacks false d a s).script).rounds⟩) ∧
    ((ECS.simulate_combat defender attacker script).outcome =
        Outcome.attacker_wins ↔
      (ECS.simulate_combat defender attacker script).defender.fleet = []) ∧
    ((ECS.simulate_combat defender attacker script).outcome =
        Outcome.defender_wins ↔
      (ECS.simulate_combat defender attacker script).defender.fleet ≠ [] ∧
        (ECS.simulate_combat defender attacker script).attacker.fleet =
          []) ∧
    ((ECS.simulate_combat defender attacker script).outcome =
        Outcome.stalemate ↔
      (ECS.simulate_combat defender attacker script).defender.fleet ≠ [] ∧
        (ECS.simulate_combat defender attacker script).attacker.fleet ≠
          []) ∧
    ((ECS.simulate_combat defender attacker script).outcome =
        Outcome.stalemate →
      (ECS.simulate_combat defender attacker script).round_traces.length =
        999) := by
  have hshrink :
      (ECS.simulate_combat defender attacker script).defender.fleet.length ≤
          defender.fleet.length ∧
        (ECS.simulate_combat defender attacker
            script).attacker.fleet.length ≤ attacker.fleet.length := by
    unfold ECS.simulate_combat
    dsimp only
    constructor
    · exact le_trans (run_rounds_fleet_len 999 _ _ _).1
        (le_trans (le_of_eq (sort_fleet_length _))
          (roll_attacks_fleet_len true defender attacker script).1)
    · exact le_trans (run_rounds_fleet_len 999 _ _ _).2
        (le_trans (le_of_eq (sort_fleet_length _))
          (roll_attacks_fleet_len true defender attacker script).2)
  have hstep : ∀ (n : Nat) (d a : Player) (s : List Nat),
      d.fleet ≠ [] → a.fleet ≠ [] →
      ECS.run_rounds (n + 1) d a s =
        ⟨(ECS.run_rounds n (ECS.roll_attacks false d a s).defender
            (ECS.roll_attacks false d a s).attacker
            (ECS.roll_attacks false d a s).script).defender,
          (ECS.run_rounds n (ECS.roll_attacks false d a s).defender
            (ECS.roll_attacks false d a s).attacker
            (ECS.roll_attacks false d a s).script).attacker,
          (ECS.run_rounds n (ECS.roll_attacks false d a s).defender
            (ECS.roll_attacks false d a s).attacker
            (ECS.roll_attacks false d a s).script).script,
          (ECS.roll_attacks false d a s).trace ::
            (ECS.run_rounds n (ECS.roll_attacks false d a s).defender
              (ECS.roll_attacks false d a s).attacker
              (ECS.roll_attacks false d a s).script).rounds⟩ := by
    intro n d a s h1 h2
    rw [ECS.run_rounds, if_neg (not_or.mpr ⟨h1, h2⟩)]
  have hempty : ∀ (n : Nat) (d a : Player) (s : List Nat),
      d.fleet = [] ∨ a.fleet = [] →
      ECS.run_rounds n d a s = ⟨d, a, s, []⟩ := by
    intro n d a s h
    cases n with
    | zero => rfl
    | succ n => rw [ECS.run_rounds, if_pos h]
  have hout : (ECS.simulate_combat defender attacker script).outcome =
      (if (ECS.simulate_combat defender attacker
            script).defender.fleet.length < 1 then Outcome.attacker_wins
        else if (ECS.simulate_combat defender attacker
            script).attacker.fleet.length < 1 then Outcome.defender_wins
        else Outcome.stalemate) := by
    unfold ECS.simulate_combat
    rfl
  have hrr := classify_outcome
    ⟨(ECS.simulate_combat defender attacker script).defender,
      (ECS.simulate_combat defender attacker script).attacker,
      (ECS.simulate_combat defender attacker script).script, []⟩
  refine ⟨hshrink, roll_attacks_fleet_len, fun d a s => rfl, hempty, hstep,
    ?_, ?_, ?_, ?_⟩
  · rw [hout]
    exact hrr.1
  · rw [hout]
    exact hrr.2.1
  · rw [hout]
    exact hrr.2.2
  · intro hst
    have hboth := (by rw [hout] at hst; exact hrr.2.2.mp hst :
      (ECS.simulate_combat defender attacker script).defender.fleet ≠ [] ∧
        (ECS.simulate_combat defender attacker script).attacker.fleet ≠ [])
    have hd' : (ECS.simulate_combat defender attacker
        script).round_traces =
        (ECS.run_rounds 999
          (ECS.roll_attacks true defender attacker script).defender.sort_fleet
          (ECS.roll_attacks true defender attacker script).attacker.sort_fleet
          (ECS.roll_attacks true defender attacker script).script).rounds := by
      unfold ECS.simulate_combat
      rfl
    have hd2 : (ECS.simulate_combat defender attacker script).defender =
        (ECS.run_rounds 999
          (ECS.roll_attacks true defender attacker script).defender.sort_fleet
          (ECS.roll_attacks true defender attacker script).attacker.sort_fleet
          (ECS.roll_attacks true defender attacker script).script).defender := by
      unfold ECS.simulate_combat
      rfl
    have hd3 : (ECS.simulate_combat defender attacker script).attacker =
        (ECS.run_rounds 999
          (ECS.roll_attacks true defender attacker script).defender.sort_fleet
          (ECS.roll_attacks true defender attacker script).attacker.sort_fleet
          (ECS.roll_attacks true defender attacker script).script).attacker := by
      unfold ECS.simulate_combat
      rfl
    rw [hd']
    exact run_rounds_full 999 _ _ _
      (by rw [← hd2]; exact hboth.1) (by rw [← hd3]; exact hboth.2)

/-- Witness for `monotonic_shrinkage_and_termination`: the round loop is the
identity on a state whose defender fleet is already empty, and stops at fuel
0 (the 1000-round cap) without touching the players. -/
theorem monotonic_shrinkage_and_termination_witness :
    ECS.run_rounds 5 ⟨1, true, []⟩ ⟨2, false, [wShip]⟩ [3] =
      ⟨⟨1, true, []⟩, ⟨2, false, [wShip]⟩, [3], []⟩ ∧
    ECS.run_rounds 0 ⟨1, true, [wShip]⟩ ⟨2, false, []⟩ [] =
      ⟨⟨1, true, [wShip]⟩, ⟨2, false, []⟩, [], []⟩ :=
  ⟨(monotonic_shrinkage_and_termination ⟨1, true, []⟩ ⟨2, false, [wShip]⟩
      [3]).2.2.2.1 5 ⟨1, true, []⟩ ⟨2, false, [wShip]⟩ [3] (Or.inl rfl),
    (monotonic_shrinkage_and_termination ⟨1, true, []⟩ ⟨2, false, [wShip]⟩
      [3]).2.2.1 ⟨1, true, [wShip]⟩ ⟨2, false, []⟩ []⟩

end ECSim
